import Mathlib

/-!
# ngx_json_extractor_module: path resolution, descriptor cache and teardown

A shallow embedding of `src/ngx_json_extractor_module.c`.

Conventions of the embedding.

* A C string (`char *`, `u_char *`, the bytes of an `ngx_str_t`) is the list of
  its characters up to, and without, the terminating NUL; a NULL pointer is
  `none` (or `VData.null` for the `data` field of a variable value).
* A `json_t *` that points to a document is the pair of a handle (the identity
  of the allocation) and the document tree it points to. The module never
  mutates a document.
* The functions of the host (nginx) and of the JSON library (jansson) that the
  module calls are not part of the repository. The decoder and the encoder are
  fields of `Env`; the host's indexed-variable lookup is an argument `lookup`
  of every function that calls it, and `ngx_http_get_indexed_variable` below
  is the host model that ties the knot.
* Pool string copies (`ngx_http_json_pstrdup`) are taken to succeed on a pool
  that is there; `ngx_pool_cleanup_add`, whose failure `ngx_http_json_desc`
  handles, fails or succeeds as the request's `cleanup_alloc` plan says.
* Where the C code reads through a pointer that is NULL, released, or typed as
  something else than what it points to, its behaviour is undefined: the model
  sets the `fault` field of the request and takes the error path, and no
  theorem about the code's result rests on such a step.
* The build flags are the defaults of the source:
  `NGX_JSON_EXTRACTOR_CLEANUP_SPIKE` is 1; `NGX_JSON_EXTRACTOR_USE_DEFAULT_VALUE`
  is the field `use_default_value` of `Env` (1 by default).
-/

namespace NgxJsonExtractor

/-- A C string: the characters before the terminating NUL. -/
abbrev CStr := List Char

/-! ## Constants and macros -/

def JSON_REJECT_DUPLICATES : Nat := 0x1

def JSON_DISABLE_EOF_CHECK : Nat := 0x2

def JSON_DECODE_ANY : Nat := 0x4

def NGX_OK : Int := 0

def NGX_ERROR : Int := -1

/-- The value `(ngx_uint_t) -1` on a 64-bit build. -/
def NGX_CONF_UNSET_UINT : Nat := 2 ^ 64 - 1

def NGX_HTTP_VAR_NOCACHEABLE : Nat := 2

/-- The macro `l_isspace`. -/
def l_isspace (c : Char) : Bool :=
  c == ' ' || c == '\n' || c == '\r' || c == '\t'

/-! ## strip -/

/-- The first loop of `strip`: `while(*result && l_isspace(*result)) result++`. -/
def strip_leading : CStr → CStr
  | [] => []
  | c :: cs => if l_isspace c then strip_leading cs else c :: cs

/-- The second loop of `strip`, `while(l_isspace(result[length - 1])) result[--length] = 0`,
as the final value of `length`. -/
def strip_trailing (result : CStr) : Nat → Nat
  | 0 => 0
  | length + 1 =>
    if l_isspace (result.getD length '\x00') then strip_trailing result length
    else length + 1

/-- The function `strip`: the text the returned pointer designates. -/
def strip (str : CStr) : CStr :=
  let result := strip_leading str
  let length := result.length
  if length = 0 then result
  else result.take (strip_trailing result length)

/-- The second loop of `strip` with its reads checked: `none` when the loop
reads `result[length - 1]` with `length` 0, before the start of `result`;
the final value of `length` otherwise. -/
def strip_trailing_checked (result : CStr) : Nat → Option Nat
  | 0 => none
  | length + 1 =>
    if l_isspace (result.getD length '\x00') then strip_trailing_checked result length
    else some (length + 1)

/-- The function `strip` with the reads of its second loop checked. -/
def strip_checked (str : CStr) : Option CStr :=
  let result := strip_leading str
  let length := result.length
  if length = 0 then some result
  else (strip_trailing_checked result length).map (fun n => result.take n)

/-- The text of the specification for `strip`: the source without its
longest leading run and its longest trailing run of whitespace. -/
def strip_spec (s : CStr) : CStr :=
  ((s.dropWhile l_isspace).reverse.dropWhile l_isspace).reverse

/-! ## C library -/

/-- The function `strstr` (`ngx_strstr`): the offset of the first occurrence of
`s2` in `s1`, `none` for a NULL result. -/
def ngx_strstr : CStr → CStr → Option Nat
  | [], s2 => if s2.isEmpty then some 0 else none
  | c :: cs, s2 =>
    if s2.isPrefixOf (c :: cs) then some 0
    else (ngx_strstr cs s2).map (· + 1)

/-- The function `ngx_http_json_pstrdup`: a NUL-terminated pool copy of the
first `len` bytes of `src`. -/
def ngx_http_json_pstrdup (src : CStr) (len : Nat) : CStr :=
  src.take len

/-! ## JSON values (jansson) -/

/-- A jansson value. An object is the list of its members in iteration order;
a real is kept as the text the encoder prints for it (the module never
computes on a number). -/
inductive Json where
  | object (members : List (CStr × Json))
  | array (elems : List Json)
  | string (value : CStr)
  | integer (value : Int)
  | real (repr : CStr)
  | jtrue
  | jfalse
  | null

def json_is_object : Json → Bool
  | .object _ => true
  | _ => false

def json_is_true : Json → Bool
  | .jtrue => true
  | _ => false

def json_is_false : Json → Bool
  | .jfalse => true
  | _ => false

def json_is_null : Json → Bool
  | .null => true
  | _ => false

def json_is_string : Json → Bool
  | .string _ => true
  | _ => false

/-- The function `json_string_value` (NULL when the value is not a string). -/
def json_string_value : Json → Option CStr
  | .string s => some s
  | _ => none

/-- The function `json_object_get`: the value stored under `key`, NULL when
the value is not an object or has no such member. -/
def json_object_get : Json → CStr → Option Json
  | .object members, key => (members.find? (fun kv => kv.1 == key)).map (·.2)
  | _, _ => none

/-- An upper-case hexadecimal digit. -/
def hex_digit (n : Nat) : Char :=
  if n < 10 then Char.ofNat (48 + n) else Char.ofNat (55 + n)

/-- The escape sequence jansson's encoder writes for one character of a
string (no `JSON_ESCAPE_SLASH`, no `JSON_ENSURE_ASCII`). -/
def dump_char (c : Char) : CStr :=
  if c = '\\' then ['\\', '\\']
  else if c = '"' then ['\\', '"']
  else if c = '\x08' then ['\\', 'b']
  else if c = '\x0c' then ['\\', 'f']
  else if c = '\n' then ['\\', 'n']
  else if c = '\r' then ['\\', 'r']
  else if c = '\t' then ['\\', 't']
  else if c.toNat < 0x20 then
    ['\\', 'u', '0', '0', hex_digit (c.toNat / 16), hex_digit (c.toNat % 16)]
  else [c]

def dump_string (s : CStr) : CStr :=
  '"' :: (s.flatMap dump_char) ++ ['"']

mutual
/-- A model of jansson's `json_dumps(val, JSON_ENCODE_ANY)`: the default
encoding, members and elements separated by `", "`, keys by `": "`. -/
def json_dumps : Json → CStr
  | .object ms => '{' :: dump_members ms ++ ['}']
  | .array es => '[' :: dump_elems es ++ [']']
  | .string s => dump_string s
  | .integer n => (toString n).toList
  | .real t => t
  | .jtrue => ['t', 'r', 'u', 'e']
  | .jfalse => ['f', 'a', 'l', 's', 'e']
  | .null => ['n', 'u', 'l', 'l']
def dump_members : List (CStr × Json) → CStr
  | [] => []
  | [(k, v)] => dump_string k ++ [':', ' '] ++ json_dumps v
  | (k, v) :: m :: ms =>
    dump_string k ++ [':', ' '] ++ json_dumps v ++ [',', ' '] ++ dump_members (m :: ms)
def dump_elems : List Json → CStr
  | [] => []
  | [e] => json_dumps e
  | e :: f :: es => json_dumps e ++ [',', ' '] ++ dump_elems (f :: es)
end

/-! ## Location configuration -/

/-- The struct `je_item_t`. -/
structure je_item_t where
  data : Nat
  data_index : Nat
  index : Nat

/-- The struct `ngx_json_extractor_loc_t`; an `ngx_str_t` is its bytes, an
unset one is empty; `json_cache` is the elements of the array (none when
`elts` is NULL). -/
structure ngx_json_extractor_loc_t where
  prefix_ : CStr
  separator : CStr
  default_val : CStr
  json_cache : List je_item_t

/-! ## get_json_item -/

/-- The separator `get_json_item` searches for. -/
def item_separator (olcf : ngx_json_extractor_loc_t) : CStr :=
  if olcf.separator.length > 0 then olcf.separator else ['_', '_']

/-- The number of bytes `get_json_item` skips after a separator. -/
def item_separator_len (olcf : ngx_json_extractor_loc_t) : Nat :=
  if olcf.separator.length > 0 then olcf.separator.length else 2

/-- The tail of `get_json_item`: the conversion of the matched value to a
string. -/
def json_item_text (dumps : Json → CStr) (val : Json) : Option CStr :=
  if json_is_true val then some ['1']
  else if json_is_false val then some ['0']
  else if json_is_null val then some []
  else if json_is_string val then
    match json_string_value val with
    | some txt => some (ngx_http_json_pstrdup txt txt.length)
    | none => none
  else
    let txt := dumps val
    some (ngx_http_json_pstrdup txt txt.length)

/-- The function `get_json_item`, with the depth of the C recursion bounded by
`fuel`; `none` is a NULL result. -/
def get_json_item_aux (dumps : Json → CStr) (olcf : ngx_json_extractor_loc_t) :
    Nat → CStr → Json → Option CStr
  | 0, _, _ => none
  | fuel + 1, text, json =>
    if !json_is_object json then none
    else
      let separator := item_separator olcf
      let end0 := ngx_strstr text separator
      -- `*end = 0` cuts `text` at the separator, `end +=` skips it
      let key := match end0 with
        | some i => text.take i
        | none => text
      let end1 := end0.map (fun i => text.drop (i + item_separator_len olcf))
      match json_object_get json key with
      | none => none
      | some val =>
        match end1 with
        | some (c :: cs) => get_json_item_aux dumps olcf fuel (c :: cs) val
        | _ => json_item_text dumps val

/-- The function `get_json_item`. Each recursive call is on a strictly shorter
text, so `text.length + 1` levels are enough (`get_json_item_aux_fuel`). -/
def get_json_item (dumps : Json → CStr) (olcf : ngx_json_extractor_loc_t)
    (text : CStr) (json : Json) : Option CStr :=
  get_json_item_aux dumps olcf (text.length + 1) text json

/-! ## Paths -/

/-- One level of `get_json_item`, with `rec` for the recursive call. -/
def get_json_item_body (dumps : Json → CStr) (olcf : ngx_json_extractor_loc_t)
    (rec : CStr → Json → Option CStr) (text : CStr) (json : Json) : Option CStr :=
  if !json_is_object json then none
  else
    match json_object_get json
        (match ngx_strstr text (item_separator olcf) with
          | some i => text.take i
          | none => text) with
    | none => none
    | some val =>
      match (ngx_strstr text (item_separator olcf)).map
          (fun i => text.drop (i + item_separator_len olcf)) with
      | some (c :: cs) => rec (c :: cs) val
      | _ => json_item_text dumps val

/-- Whether an occurrence of `s` in `p ++ s` starts inside `p` and ends past
the end of `p`. -/
def sep_straddles (s : CStr) : CStr → Bool
  | [] => false
  | c :: cs => (s.isPrefixOf (c :: cs ++ s) && !s.isPrefixOf (c :: cs)) || sep_straddles s cs

/-- The key `get_json_item` looks up: the text before the first separator. -/
def item_key (olcf : ngx_json_extractor_loc_t) (text : CStr) : CStr :=
  match ngx_strstr text (item_separator olcf) with
  | some i => text.take i
  | none => text

/-- The remainder of `get_json_item` (`end` after the separator is skipped),
`none` when the text has no separator. -/
def item_rest (olcf : ngx_json_extractor_loc_t) (text : CStr) : Option CStr :=
  (ngx_strstr text (item_separator olcf)).map
    (fun i => text.drop (i + item_separator_len olcf))

/-- The traversal of `text` in `json` reaches an object that lacks the final
key: every key before the last is found, in an object, and the last key,
with no remainder after it, is absent from the object reached. -/
inductive lacks_final_key (olcf : ngx_json_extractor_loc_t) : CStr → Json → Prop where
  | final (text : CStr) (json : Json) :
    json_is_object json = true →
    (item_rest olcf text = none ∨ item_rest olcf text = some []) →
    json_object_get json (item_key olcf text) = none →
    lacks_final_key olcf text json
  | inner (text : CStr) (json val : Json) (c : Char) (cs : CStr) :
    json_object_get json (item_key olcf text) = some val →
    item_rest olcf text = some (c :: cs) →
    lacks_final_key olcf (c :: cs) val →
    lacks_final_key olcf text json

/-- The traversal of `text` in `json` meets a value that is not an object
where an object is expected: the document itself, or the value found under a
key that has a remainder after it. -/
inductive meets_non_object (olcf : ngx_json_extractor_loc_t) : CStr → Json → Prop where
  | here (text : CStr) (json : Json) :
    json_is_object json = false →
    meets_non_object olcf text json
  | inner (text : CStr) (json val : Json) (c : Char) (cs : CStr) :
    json_object_get json (item_key olcf text) = some val →
    item_rest olcf text = some (c :: cs) →
    meets_non_object olcf (c :: cs) val →
    meets_non_object olcf text json

/-- The keys of a path written one after the other with `sep` in between. -/
def join_path (sep : CStr) : List CStr → CStr
  | [] => []
  | [k] => k
  | k :: k' :: ks => k ++ sep ++ join_path sep (k' :: ks)

/-- The leaf coercion of the specification: `"1"` for true, `"0"` for false,
the empty text for null, the contents of a string, and the serialization of
any other value. -/
def leaf_text (dumps : Json → CStr) : Json → CStr
  | .jtrue => ['1']
  | .jfalse => ['0']
  | .null => []
  | .string s => s
  | v => dumps v

/-! ## Requests, variable slots and the environment -/

/-- What the `data` pointer of a variable value designates: nothing (NULL), a
text, or a decoded document (`json_t *` stored through the cast in
`ngx_http_json_desc`), the latter with the handle of its allocation. -/
inductive VData where
  | null
  | text (s : CStr)
  | json (handle : Nat) (doc : Json)

/-- The struct `ngx_http_variable_value_t`. -/
structure ngx_http_variable_value_t where
  len : Nat
  valid : Bool
  no_cacheable : Bool
  not_found : Bool
  data : VData

/-- The `get_handler` of a variable: one of the two getters of this module, or
a getter of the host, which is given by what it does: it fails (`none`) or
stores a value and succeeds. -/
inductive get_handler_pt where
  | json_desc
  | json_extract_var
  | host (result : Option ngx_http_variable_value_t)

/-- The struct `ngx_http_variable_t`, the fields the module and the lookup
read. -/
structure ngx_http_variable_t where
  name : CStr
  get_handler : get_handler_pt
  data : Nat
  flags : Nat
  index : Nat

/-- The `handler` of an entry of the pool's cleanup list (`unset` is the NULL
handler `ngx_pool_cleanup_add` returns the new entry with). -/
inductive cleanup_pt where
  | unset
  | json_extractor_module_cleanup
  | other (id : Nat)
deriving DecidableEq

/-- What is fixed when a request runs: the variable table of the main
configuration (`cmcf->variables`), the location configuration, the memory the
descriptors' `data` point into (the C string at an address), the build flag
`NGX_JSON_EXTRACTOR_USE_DEFAULT_VALUE`, jansson's `json_loads` (text and
flags to a document, `none` for NULL) and `json_dumps`, and `r->pool->max`,
the largest size the request pool serves from its own blocks (a larger
allocation is a large block, the only kind `ngx_pfree` releases). -/
structure Env where
  variables_ : List ngx_http_variable_t
  olcf : ngx_json_extractor_loc_t
  mem : Nat → CStr
  use_default_value : Bool
  pool_max : Nat
  loads : CStr → Nat → Option Json
  dumps : Json → CStr

/-- The state of one request: the variable slots `r->variables`, whether
`r->pool` is NULL (the host's `ngx_http_free_request` sets it so before it
destroys the pool, which runs the pool's cleanup handlers), the handlers on
the pool's cleanup list (head first), and the outcomes of the coming calls of
`ngx_pool_cleanup_add` (`false` for a failed allocation, none left for
success). Three fields record what happened: the calls of `json_loads` in
order (text and flags), the handles passed to `json_delete` in order, and
whether a pointer that is NULL, released, or that points to something else
than what it is read as, was dereferenced (the C code has no defined
behaviour from there on; the model takes the error path). -/
structure Request where
  variables_ : Nat → ngx_http_variable_value_t
  pool_null : Bool
  cleanup : List cleanup_pt
  cleanup_alloc : List Bool
  decoded : List (CStr × Nat)
  deleted : List Nat
  fault : Bool

/-- The host's lookup as the module's functions see it: the new request state
and the slot, `none` for NULL. -/
abbrev Lookup := Request → Nat → Request × Option ngx_http_variable_value_t

/-- The assignment to the fields of the slot `r->variables[i]`. -/
def set_variable (r : Request) (i : Nat) (v : ngx_http_variable_value_t) : Request :=
  { r with variables_ := fun j => if j = i then v else r.variables_ j }

/-- The function `ngx_pool_cleanup_add(r->pool, 0)`: a new entry with no
handler at the head of the list, or NULL. -/
def ngx_pool_cleanup_add (r : Request) : Request × Bool :=
  match r.cleanup_alloc with
  | [] => ({ r with cleanup := cleanup_pt.unset :: r.cleanup }, true)
  | true :: plan =>
    ({ r with cleanup := cleanup_pt.unset :: r.cleanup, cleanup_alloc := plan }, true)
  | false :: plan => ({ r with cleanup_alloc := plan }, false)

/-- The function `json_loads` called on a request: the call is recorded, and a
document comes with a fresh handle. -/
def json_loads (env : Env) (r : Request) (text : CStr) (flags : Nat) :
    Request × VData :=
  let r1 := { r with decoded := r.decoded ++ [(text, flags)] }
  match env.loads text flags with
  | none => (r1, VData.null)
  | some doc => (r1, VData.json r.decoded.length doc)

/-- The function `json_delete` on the pointer stored in a slot. -/
def json_delete (r : Request) : VData → Request
  | .null => r
  | .json h _ => { r with deleted := r.deleted ++ [h] }
  | .text _ => { r with fault := true }

/-! ## Helpers of the module -/

/-- The function `get_item_by_data`. -/
def get_item_by_data (olcf : ngx_json_extractor_loc_t) (data : Nat) : Option je_item_t :=
  olcf.json_cache.find? (fun it => data == it.data)

/-- The function `get_head_var`, for `v` the slot `r->variables + vi`. -/
def get_head_var (env : Env) (vi : Nat) : Option ngx_http_variable_t :=
  if vi < env.variables_.length then env.variables_.get? vi else none

/-- The function `get_json`. -/
def get_json (env : Env) (lookup : Lookup) (r : Request) (data : Nat) :
    Request × VData :=
  match env.olcf.json_cache.find? (fun it => data == it.data) with
  | some it =>
    match lookup r it.index with
    | (r1, none) => (r1, VData.null)
    | (r1, some vv) => (r1, vv.data)
  | none => (r, VData.null)

/-! ## Variable getters -/

/-- The cleanup block of `ngx_http_json_desc` (`NGX_JSON_EXTRACTOR_CLEANUP_SPIKE`):
the request after the block, and `false` when `ngx_pool_cleanup_add` returns
NULL (the getter then returns `NGX_ERROR`). The block starts by reading
`r->pool->cleanup`: with `r->pool` NULL that is a NULL dereference. -/
def register_cleanup (r : Request) : Request × Bool :=
  if r.pool_null then ({ r with fault := true }, false)
  else if r.cleanup.any (fun h => h == cleanup_pt.json_extractor_module_cleanup) then
    (r, true)
  else
    match ngx_pool_cleanup_add r with
    | (r1, false) => (r1, false)
    | (r1, true) =>
      -- `cln->handler = ...` on the entry just added
      ({ r1 with cleanup := cleanup_pt.json_extractor_module_cleanup :: r1.cleanup.tail }, true)

/-- The source text `ngx_http_json_desc` decodes (`nm` at the call of
`json_loads`), `none` where the function returns `NGX_ERROR` before. -/
def json_desc_source (env : Env) (lookup : Lookup) (r : Request) (data : Nat) :
    Request × Option CStr :=
  let nm := env.mem data
  if nm.head? = some '$' then
    match get_item_by_data env.olcf data with
    | none => (r, none)
    | some jit =>
      if jit.data_index = NGX_CONF_UNSET_UINT then (r, none)
      else
        match lookup r jit.data_index with
        | (r1, none) => (r1, none)
        | (r1, some v) =>
          match v.data with
          | .text s => (r1, some s)
          | .null => ({ r1 with fault := true }, none)
          | .json _ _ => ({ r1 with fault := true }, none)
  else (r, some nm)

/-- The function `ngx_http_json_desc`, for `v` the slot `r->variables + vi`. -/
def ngx_http_json_desc (env : Env) (lookup : Lookup) (r : Request) (vi : Nat)
    (data : Nat) : Request × Int :=
  if data = 0 then (r, NGX_ERROR)
  else
    let flags := JSON_DECODE_ANY
    match register_cleanup r with
    | (r1, false) => (r1, NGX_ERROR)
    | (r1, true) =>
      match json_desc_source env lookup r1 data with
      | (r2, none) => (r2, NGX_ERROR)
      | (r2, some nm) =>
        match json_loads env r2 (strip nm) flags with
        | (r3, .null) => (r3, NGX_ERROR)
        | (r3, json) =>
          (set_variable r3 vi
            { len := 0, valid := true, no_cacheable := false, not_found := false,
              data := json },
           NGX_OK)

/-- The search text of `ngx_http_json_extract_var` (`stext` after the prefix
block): a copy of the variable's name, past the configured prefix when the
name starts with it. Whether the copy is still allocated when `get_json_item`
reads it, after the call of `ngx_pfree`, is `stext_released`. -/
def json_var_path (olcf : ngx_json_extractor_loc_t) (name : CStr) : CStr :=
  let stext := ngx_http_json_pstrdup name name.length
  if olcf.prefix_.length > 0 ∧ ngx_strstr stext olcf.prefix_ = some 0 then
    stext.drop olcf.prefix_.length
  else stext

/-- Whether the call `ngx_pfree(r->pool, stext)` of `ngx_http_json_extract_var`
releases the copy of the name. `ngx_pfree` releases a block when the pointer
is the start of one of the pool's large blocks: the copy, of `len + 1`
bytes, is a large block when that size exceeds `r->pool->max`, and `stext`
is still its start when no prefix was skipped. -/
def stext_released (env : Env) (name : CStr) : Bool :=
  decide (env.pool_max < name.length + 1) &&
    !decide (env.olcf.prefix_.length > 0 ∧
      ngx_strstr (ngx_http_json_pstrdup name name.length) env.olcf.prefix_ = some 0)

/-- The function `ngx_http_json_extract_var`, for `v` the slot
`r->variables + vi`. Three steps of the C function have no defined behaviour
and set `fault`: the copy of the name on a pool that is NULL; the call of
`get_json_item` on the copy after `ngx_pfree` has released it
(`stext_released`); and, in the build without the default value, the log
call `"Failed value: %V"`, which reads `data`, a `char *`, as the
`ngx_str_t *` that `%V` formats. -/
def ngx_http_json_extract_var (env : Env) (lookup : Lookup) (r : Request) (vi : Nat)
    (data : Nat) : Request × Int :=
  if data = 0 then (r, NGX_ERROR)
  else
    match get_head_var env vi with
    | none => (r, NGX_ERROR)
    | some vv =>
      match get_json env lookup r data with
      | (r1, .null) => (r1, NGX_ERROR)
      | (r1, .text _) => ({ r1 with fault := true }, NGX_ERROR)
      | (r1, .json _ j) =>
        -- `stext = ngx_http_json_pstrdup(r->pool, ...)`
        if r1.pool_null then ({ r1 with fault := true }, NGX_ERROR)
        -- `ngx_pfree(r->pool, stext)`, then `get_json_item(r, stext, j)`
        else if stext_released env vv.name then ({ r1 with fault := true }, NGX_ERROR)
        else
          match get_json_item env.dumps env.olcf (json_var_path env.olcf vv.name) j with
          | none =>
            if env.use_default_value then
              (set_variable r1 vi
                { len := env.olcf.default_val.length, valid := true, no_cacheable := false,
                  not_found := false, data := VData.text env.olcf.default_val },
               NGX_OK)
            else
              -- `ngx_log_error_core(..., "Failed value: %V", data)`
              ({ r1 with fault := true }, NGX_ERROR)
          | some val =>
            (set_variable r1 vi
              { len := val.length, valid := true, no_cacheable := false,
                not_found := false, data := VData.text val },
             NGX_OK)

/-! ## Teardown -/

/-- The body of the loop of `ngx_json_extractor_module_cleanup_handler`. -/
def cleanup_visit (lookup : Lookup) (r : Request) (it : je_item_t) : Request :=
  match lookup r it.index with
  | (r1, none) => r1
  | (r1, some vv) => json_delete r1 vv.data

/-- The function `ngx_json_extractor_module_cleanup_handler`. -/
def ngx_json_extractor_module_cleanup_handler (env : Env) (lookup : Lookup)
    (r : Request) : Request :=
  env.olcf.json_cache.foldl (cleanup_visit lookup) r

/-! ## Host model -/

/-- A model of the host's `ngx_http_get_indexed_variable`: an index out of
range gives NULL; a slot that is valid or marked not found is returned as it
is; otherwise the variable's `get_handler` runs, and the slot is returned
when the handler returns `NGX_OK` and marked not found when it does not.
`depth` is the host's `ngx_http_variable_depth`, the bound on nested
evaluations. -/
def ngx_http_get_indexed_variable (env : Env) : Nat → Lookup
  | depth, r, index =>
    if env.variables_.length ≤ index then (r, none)
    else if (r.variables_ index).not_found || (r.variables_ index).valid then
      (r, some (r.variables_ index))
    else
      match depth with
      | 0 => (r, none)
      | depth + 1 =>
        match env.variables_.get? index with
        | none => (r, none)
        | some v =>
          let res :=
            match v.get_handler with
            | .json_desc =>
              ngx_http_json_desc env (ngx_http_get_indexed_variable env depth) r index v.data
            | .json_extract_var =>
              ngx_http_json_extract_var env (ngx_http_get_indexed_variable env depth)
                r index v.data
            | .host none => (r, NGX_ERROR)
            | .host (some val) => (set_variable r index val, NGX_OK)
          if res.2 = NGX_OK then
            let r1 :=
              if v.flags &&& NGX_HTTP_VAR_NOCACHEABLE ≠ 0 then
                set_variable res.1 index { res.1.variables_ index with no_cacheable := true }
              else res.1
            (r1, some (r1.variables_ index))
          else
            (set_variable res.1 index
              { res.1.variables_ index with valid := false, not_found := true }, none)

/-! ## Relations between request states -/

/-- A relation between the state of a request before and after a step that
holds across everything the module and the host do to a request: it is
reflexive and transitive, and it holds across an assignment to a variable
slot, the cleanup block of `ngx_http_json_desc`, a call of `json_loads` with
the flags `JSON_DECODE_ANY`, and the use of a pointer as what it is not. -/
structure StepInvariant (R : Request → Request → Prop) : Prop where
  refl : ∀ r, R r r
  trans : ∀ a b c, R a b → R b c → R a c
  set_var : ∀ r i v, R r (set_variable r i v)
  register : ∀ r, R r (register_cleanup r).1
  loads : ∀ env r t, R r (json_loads env r t JSON_DECODE_ANY).1
  fault : ∀ r, R r { r with fault := true }

/-- The number of entries of a cleanup list whose handler is
`ngx_json_extractor_module_cleanup_handler`. -/
def cleanup_count (l : List cleanup_pt) : Nat :=
  l.count cleanup_pt.json_extractor_module_cleanup

/-- The log of `json_loads` calls is extended by calls whose flags are
`JSON_DECODE_ANY`. -/
def decoded_step (r r1 : Request) : Prop :=
  ∃ l : List (CStr × Nat), r1.decoded = r.decoded ++ l ∧ ∀ e ∈ l, e.2 = JSON_DECODE_ANY

/-- The function `get_json` called `n` times in a row on a request: the
final state and the pointers returned, in order. -/
def get_json_times (env : Env) (lookup : Lookup) (data : Nat) :
    Nat → Request → Request × List VData
  | 0, r => (r, [])
  | n + 1, r =>
    let res := get_json env lookup r data
    let rest := get_json_times env lookup data n res.1
    (rest.1, res.2 :: rest.2)

/-- Whether a slot's `data` points to a text. -/
def slot_is_text : VData → Bool
  | .text _ => true
  | _ => false

/-- The handle of the document a slot's `data` points to, if it points to one. -/
def slot_handle : VData → Option Nat
  | .json h _ => some h
  | _ => none

/-! ## A configuration and a request to run the module on -/

/-- The location configuration with every directive unset. -/
def olcf_unset : ngx_json_extractor_loc_t :=
  { prefix_ := [], separator := [], default_val := [], json_cache := [] }

/-- The document `{"a": {"b": {"c": 42}}}`. -/
def doc_abc : Json :=
  .object [(['a'], .object [(['b'], .object [(['c'], .integer 42)])])]

/-- The document `{"x_": {"b": {"c": 42}}}`. -/
def doc_x_bc : Json :=
  .object [(['x', '_'], .object [(['b'], .object [(['c'], .integer 42)])])]

/-- The document `{"a_": {"b": 1}}`. -/
def doc_a_b : Json :=
  .object [(['a', '_'], .object [(['b'], .integer 1)])]

/-- The document `{"a_": 1}`. -/
def doc_a_ : Json := .object [(['a', '_'], .integer 1)]

/-- A source text with blanks around a document. -/
def src_doc : CStr := " \x7b\"a\": 5, \"o\": \x7b\"b\": 1\x7d\x7d ".toList

/-- The document `{"a": 5, "o": {"b": 1}}` of `src_doc`. -/
def doc_ao : Json :=
  .object [(['a'], .integer 5), (['o'], .object [(['b'], .integer 1)])]

/-- A source text that is not JSON. -/
def src_bad : CStr := "\x7bnot json".toList

/-- A source text with the key `k` twice. -/
def src_dup : CStr := "\x7b\"k\": 1, \"k\": 2\x7d".toList

/-- A decoder for the three source texts above, as jansson decodes them: the
text with a key twice is rejected when the flags hold
`JSON_REJECT_DUPLICATES`, and decoded to the last value otherwise. -/
def loads_example (text : CStr) (flags : Nat) : Option Json :=
  if text = strip src_doc then some doc_ao
  else if text = src_dup then
    if flags &&& JSON_REJECT_DUPLICATES ≠ 0 then none
    else some (.object [(['k'], .integer 2)])
  else none

/-- The flag `NGX_HTTP_VAR_CHANGEABLE`, with which `ngx_http_json_extract`
adds its variables. -/
def NGX_HTTP_VAR_CHANGEABLE : Nat := 1

/-- A configuration as `ngx_http_json_extract` builds it for three
directives with literal sources, `src_doc` (at address 0x1000, outputs
`$a__b`, `$o__x`, `$o__b`), `src_bad` (0x2000, output `$q`) and `src_dup`
(0x3000, no output read here), with `json_default_value N/A`. -/
def env_example : Env :=
  { variables_ :=
      [ { name := "jsone_0x1000".toList, get_handler := .json_desc, data := 0x1000,
          flags := NGX_HTTP_VAR_CHANGEABLE, index := 0 },
        { name := "a__b".toList, get_handler := .json_extract_var, data := 0x1000,
          flags := NGX_HTTP_VAR_CHANGEABLE, index := 1 },
        { name := "o__x".toList, get_handler := .json_extract_var, data := 0x1000,
          flags := NGX_HTTP_VAR_CHANGEABLE, index := 2 },
        { name := "o__b".toList, get_handler := .json_extract_var, data := 0x1000,
          flags := NGX_HTTP_VAR_CHANGEABLE, index := 3 },
        { name := "jsone_0x2000".toList, get_handler := .json_desc, data := 0x2000,
          flags := NGX_HTTP_VAR_CHANGEABLE, index := 4 },
        { name := "q".toList, get_handler := .json_extract_var, data := 0x2000,
          flags := NGX_HTTP_VAR_CHANGEABLE, index := 5 },
        { name := "jsone_0x3000".toList, get_handler := .json_desc, data := 0x3000,
          flags := NGX_HTTP_VAR_CHANGEABLE, index := 6 } ],
    olcf :=
      { prefix_ := [], separator := [], default_val := ['N', '/', 'A'],
        json_cache :=
          [ { data := 0x1000, data_index := NGX_CONF_UNSET_UINT, index := 0 },
            { data := 0x2000, data_index := NGX_CONF_UNSET_UINT, index := 4 },
            { data := 0x3000, data_index := NGX_CONF_UNSET_UINT, index := 6 } ] },
    mem := fun a =>
      if a = 0x1000 then src_doc else if a = 0x2000 then src_bad
      else if a = 0x3000 then src_dup else [],
    use_default_value := true,
    pool_max := 4016,
    loads := loads_example,
    dumps := json_dumps }

/-- The same configuration with one directive only, the one on `src_doc`. -/
def env_single : Env :=
  { env_example with
    olcf := { env_example.olcf with
      json_cache := [{ data := 0x1000, data_index := NGX_CONF_UNSET_UINT, index := 0 }] } }

/-- A request at its start: every slot zeroed, no cleanup entry, no call
made. -/
def request_fresh : Request :=
  { variables_ := fun _ =>
      { len := 0, valid := false, no_cacheable := false, not_found := false,
        data := VData.null },
    pool_null := false,
    cleanup := [], cleanup_alloc := [], decoded := [], deleted := [], fault := false }

/-- The host model with nginx's bound on nested evaluations. -/
def host_lookup (env : Env) : Lookup := ngx_http_get_indexed_variable env 100

/-- The request after `$o__b` has been read on `request_fresh` under
`env_example`: the descriptor on `src_doc` is decoded, the other two
descriptors are not evaluated. -/
def request_used : Request :=
  (host_lookup env_example request_fresh 3).1

/-- A request as the host hands it to the cleanup handlers of its pool when
`ngx_http_free_request` has set `r->pool` to NULL before destroying the
pool. -/
def request_teardown (r : Request) : Request :=
  { r with pool_null := true }

/-- A variable name of 4023 characters, `o__` and 4020 times `x`: its copy,
of 4024 bytes, is more than a pool with `max` 4016 serves from its own
blocks. -/
def name_long : CStr := ['o', '_', '_'] ++ List.replicate 4020 'x'

/-- The configuration `env_example` with one more output of the directive on
`src_doc`, the variable of name `name_long`, at index 7. -/
def env_long_name : Env :=
  { env_example with
    variables_ := env_example.variables_ ++
      [ { name := name_long, get_handler := .json_extract_var, data := 0x1000,
          flags := NGX_HTTP_VAR_CHANGEABLE, index := 7 } ] }

/-- The request after the three descriptors of `env_example` have been
evaluated on `request_fresh`. -/
def request_all : Request :=
  (host_lookup env_example
    (host_lookup env_example (host_lookup env_example request_fresh 0).1 4).1 6).1


/-! ## Facts about `ngx_strstr` -/

theorem ngx_strstr_nil_sep (s1 : CStr) : ngx_strstr s1 [] = some 0 := by
  cases s1 <;> simp [ngx_strstr]

theorem ngx_strstr_cons (c : Char) (cs s2 : CStr) :
    ngx_strstr (c :: cs) s2 =
      if s2.isPrefixOf (c :: cs) then some 0 else (ngx_strstr cs s2).map (· + 1) := by
  simp [ngx_strstr]

/-- Where `ngx_strstr` reports an occurrence there is one, inside the text. -/
theorem ngx_strstr_some {s2 : CStr} :
    ∀ {s1 : CStr} {i : Nat}, ngx_strstr s1 s2 = some i →
      s2 <+: s1.drop i ∧ i + s2.length ≤ s1.length := by
  intro s1
  induction s1 with
  | nil =>
    intro i h
    cases s2 with
    | nil => simp [ngx_strstr] at h; subst h; simp
    | cons d ds => simp [ngx_strstr] at h
  | cons c cs ih =>
    intro i h
    rw [ngx_strstr_cons] at h
    by_cases hp : s2.isPrefixOf (c :: cs) = true
    · rw [if_pos hp] at h
      cases h
      have hp' : s2 <+: c :: cs := List.isPrefixOf_iff_prefix.mp hp
      exact ⟨by simpa using hp', by simpa using hp'.length_le⟩
    · rw [if_neg hp] at h
      cases hj : ngx_strstr cs s2 with
      | none => simp [hj] at h
      | some j =>
        simp [hj] at h
        subst h
        obtain ⟨h1, h2⟩ := ih hj
        exact ⟨by simpa using h1, by simp at h2 ⊢; omega⟩

/-- A text without an occurrence has none at its head nor in its tail. -/
theorem ngx_strstr_none_cons {s2 : CStr} {c : Char} {cs : CStr}
    (h : ngx_strstr (c :: cs) s2 = none) :
    s2.isPrefixOf (c :: cs) = false ∧ ngx_strstr cs s2 = none := by
  rw [ngx_strstr_cons] at h
  by_cases hp : s2.isPrefixOf (c :: cs) = true
  · rw [if_pos hp] at h; cases h
  · rw [if_neg hp] at h
    refine ⟨Bool.eq_false_iff.mpr hp, ?_⟩
    cases hj : ngx_strstr cs s2 with
    | none => rfl
    | some j => simp [hj] at h

theorem isPrefixOf_append_of_le {s x y : CStr} (h : s.isPrefixOf (x ++ y) = true)
    (hl : s.length ≤ x.length) : s.isPrefixOf x = true := by
  rw [List.isPrefixOf_iff_prefix] at h ⊢
  exact List.prefix_of_prefix_length_le h (List.prefix_append x y) hl

/-- The first separator of `k ++ s ++ rest` is the one written after `k`,
when `k` holds no separator and none straddles the end of `k`. -/
theorem ngx_strstr_append_sep {s : CStr} (rest : CStr) :
    ∀ {k : CStr}, ngx_strstr k s = none → sep_straddles s k = false →
      ngx_strstr (k ++ s ++ rest) s = some k.length := by
  intro k
  induction k with
  | nil =>
    intro h _
    cases s with
    | nil => simp [ngx_strstr] at h
    | cons d ds => simp [ngx_strstr]
  | cons c cs ih =>
    intro h hs
    obtain ⟨h1, h2⟩ := ngx_strstr_none_cons h
    simp only [sep_straddles, Bool.or_eq_false_iff, Bool.and_eq_false_iff] at hs
    obtain ⟨hs1, hs2⟩ := hs
    have hno : s.isPrefixOf (c :: cs ++ s) = false := by
      rcases hs1 with hs1 | hs1
      · exact hs1
      · simp [h1] at hs1
    have hno' : s.isPrefixOf (c :: (cs ++ s ++ rest)) = false := by
      apply Bool.eq_false_iff.mpr
      intro hc
      have hc' : s.isPrefixOf ((c :: cs ++ s) ++ rest) = true := hc
      have hle : s.length ≤ (c :: cs ++ s).length := by
        simp only [List.length_append, List.length_cons]; omega
      have := isPrefixOf_append_of_le hc' hle
      rw [this] at hno
      cases hno
    have := ih h2 hs2
    simp only [List.cons_append, ngx_strstr_cons, hno', this]
    simp

/-- An occurrence inside `p` is still the first one after a separator is
appended, when none straddles the end of `p`. -/
theorem ngx_strstr_append_of_some {s : CStr} :
    ∀ {p : CStr} {i : Nat}, ngx_strstr p s = some i → sep_straddles s p = false →
      ngx_strstr (p ++ s) s = some i := by
  intro p
  induction p with
  | nil =>
    intro i h _
    cases s with
    | nil => simp only [ngx_strstr_nil_sep] at h ⊢; exact h
    | cons d ds => simp [ngx_strstr] at h
  | cons c cs ih =>
    intro i h hs
    simp only [sep_straddles, Bool.or_eq_false_iff, Bool.and_eq_false_iff] at hs
    obtain ⟨hs1, hs2⟩ := hs
    rw [ngx_strstr_cons] at h
    rw [List.cons_append, ngx_strstr_cons]
    by_cases hp : s.isPrefixOf (c :: cs) = true
    · rw [if_pos hp] at h
      have : s.isPrefixOf (c :: (cs ++ s)) = true := by
        rw [List.isPrefixOf_iff_prefix] at hp ⊢
        exact hp.trans (by simp)
      rw [if_pos this]; exact h
    · rw [if_neg hp] at h
      have hno : s.isPrefixOf (c :: (cs ++ s)) = false := by
        rcases hs1 with hs1 | hs1
        · exact hs1
        · rw [Bool.not_eq_false_eq_eq_true] at hs1; exact absurd hs1 hp
      rw [hno]
      cases hj : ngx_strstr cs s with
      | none => simp [hj] at h
      | some j =>
        simp [hj] at h
        subst h
        simp [ih hj hs2]

theorem sep_straddles_drop {s : CStr} :
    ∀ {p : CStr} (n : Nat), sep_straddles s p = false → sep_straddles s (p.drop n) = false := by
  intro p
  induction p with
  | nil => intro n _; simp [sep_straddles]
  | cons c cs ih =>
    intro n h
    cases n with
    | zero => simpa using h
    | succ n =>
      simp only [sep_straddles, Bool.or_eq_false_iff] at h
      simpa using ih n h.2


/-! ## Facts about `get_json_item` -/

theorem item_separator_len_eq (olcf : ngx_json_extractor_loc_t) :
    item_separator_len olcf = (item_separator olcf).length := by
  unfold item_separator_len item_separator
  split <;> simp

theorem item_separator_len_pos (olcf : ngx_json_extractor_loc_t) :
    0 < item_separator_len olcf := by
  unfold item_separator_len
  split <;> omega

theorem item_separator_ne_nil (olcf : ngx_json_extractor_loc_t) :
    item_separator olcf ≠ [] := by
  intro h
  have := item_separator_len_pos olcf
  rw [item_separator_len_eq, h] at this
  simp at this

theorem get_json_item_aux_succ (dumps : Json → CStr) (olcf : ngx_json_extractor_loc_t)
    (fuel : Nat) (text : CStr) (json : Json) :
    get_json_item_aux dumps olcf (fuel + 1) text json =
      get_json_item_body dumps olcf (get_json_item_aux dumps olcf fuel) text json := by
  simp only [get_json_item_aux, get_json_item_body]

/-- The result of `get_json_item_aux` is the same for every bound above the
length of the text: the recursion of `get_json_item` ends before the bound
is used up. -/
theorem get_json_item_aux_fuel (dumps : Json → CStr) (olcf : ngx_json_extractor_loc_t) :
    ∀ (n m : Nat) (text : CStr) (json : Json), text.length < n → text.length < m →
      get_json_item_aux dumps olcf n text json = get_json_item_aux dumps olcf m text json := by
  intro n
  induction n with
  | zero => intro m text json h; omega
  | succ n ih =>
    intro m text json hn hm
    cases m with
    | zero => omega
    | succ m =>
      rw [get_json_item_aux_succ, get_json_item_aux_succ]
      unfold get_json_item_body
      split
      · rfl
      · split
        · rfl
        · cases hs : ngx_strstr text (item_separator olcf) with
          | none => simp
          | some i =>
            simp only [Option.map_some']
            cases hd : text.drop (i + item_separator_len olcf) with
            | nil => rfl
            | cons c cs =>
              simp only
              have hlen : (c :: cs).length = text.length - (i + item_separator_len olcf) := by
                rw [← hd, List.length_drop]
              have hpos := item_separator_len_pos olcf
              have hne : 0 < (c :: cs).length := by simp
              apply ih <;> omega

/-- The recursion equation of `get_json_item`. -/
theorem get_json_item_eq (dumps : Json → CStr) (olcf : ngx_json_extractor_loc_t)
    (text : CStr) (json : Json) :
    get_json_item dumps olcf text json =
      get_json_item_body dumps olcf (get_json_item dumps olcf) text json := by
  unfold get_json_item
  rw [get_json_item_aux_succ]
  unfold get_json_item_body
  split
  · rfl
  · split
    · rfl
    · cases hs : ngx_strstr text (item_separator olcf) with
      | none => simp
      | some i =>
        simp only [Option.map_some']
        cases hd : text.drop (i + item_separator_len olcf) with
        | nil => rfl
        | cons c cs =>
          simp only
          have hlen : (c :: cs).length = text.length - (i + item_separator_len olcf) := by
            rw [← hd, List.length_drop]
          have hpos := item_separator_len_pos olcf
          have hne : 0 < (c :: cs).length := by simp
          apply get_json_item_aux_fuel <;> omega

theorem json_item_text_eq (dumps : Json → CStr) (val : Json) :
    json_item_text dumps val = some (leaf_text dumps val) := by
  cases val <;> simp [json_item_text, leaf_text, json_is_true, json_is_false, json_is_null,
    json_is_string, json_string_value, ngx_http_json_pstrdup]

theorem json_is_object_of_get {json val : Json} {key : CStr}
    (h : json_object_get json key = some val) : json_is_object json = true := by
  cases json with
  | object ms => rfl
  | _ => exact absurd h (by simp [json_object_get])

/-- A text without a separator is looked up whole and the match is rendered. -/
theorem get_json_item_last (dumps : Json → CStr) (olcf : ngx_json_extractor_loc_t)
    (k : CStr) (json : Json) (h : ngx_strstr k (item_separator olcf) = none) :
    get_json_item dumps olcf k json =
      (json_object_get json k).bind (json_item_text dumps) := by
  rw [get_json_item_eq]
  unfold get_json_item_body
  rw [h]
  cases hg : json_object_get json k with
  | none => cases json <;> simp [json_is_object]
  | some val => simp [json_is_object_of_get hg]

/-- A key followed by a separator and a non-empty remainder: the key is
looked up and the remainder is resolved in the value found. -/
theorem get_json_item_step (dumps : Json → CStr) (olcf : ngx_json_extractor_loc_t)
    (k rest : CStr) (json : Json) (h : ngx_strstr k (item_separator olcf) = none)
    (hs : sep_straddles (item_separator olcf) k = false) (hr : rest ≠ []) :
    get_json_item dumps olcf (k ++ item_separator olcf ++ rest) json =
      (json_object_get json k).bind (get_json_item dumps olcf rest) := by
  rw [get_json_item_eq]
  unfold get_json_item_body
  rw [ngx_strstr_append_sep rest h hs]
  have h1 : (k ++ item_separator olcf ++ rest).take k.length = k := by
    rw [List.append_assoc, List.take_left']; rfl
  have h2 : (k ++ item_separator olcf ++ rest).drop (k.length + item_separator_len olcf)
      = rest := by
    rw [item_separator_len_eq, ← List.length_append, List.drop_left']; rfl
  simp only [h1, Option.map_some', h2]
  cases hg : json_object_get json k with
  | none => cases json <;> simp [json_is_object]
  | some val =>
    simp only [json_is_object_of_get hg, Bool.not_true, Bool.false_eq_true, if_false,
      Option.some_bind]
    cases rest with
    | nil => exact absurd rfl hr
    | cons c cs => rfl


/-- No occurrence of a one-character separator straddles the end of a text. -/
theorem sep_straddles_single (ch : Char) : ∀ k : CStr, sep_straddles [ch] k = false := by
  intro k
  induction k with
  | nil => rfl
  | cons c cs ih =>
    simp only [sep_straddles, ih, Bool.or_false]
    by_cases h : ch = c <;> simp [List.isPrefixOf, h]

/-- No `"__"` straddles the end of a text that holds no `"__"` and does not
end in `'_'`. -/
theorem sep_straddles_default :
    ∀ k : CStr, ngx_strstr k ['_', '_'] = none → k.getLast? ≠ some '_' →
      sep_straddles ['_', '_'] k = false := by
  intro k
  induction k with
  | nil => intro _ _; rfl
  | cons c cs ih =>
    intro h hl
    obtain ⟨h1, h2⟩ := ngx_strstr_none_cons h
    cases cs with
    | nil =>
      have hc : c ≠ '_' := by simpa using hl
      simp [sep_straddles, List.isPrefixOf, Ne.symm hc]
    | cons d ds =>
      have hl' : (d :: ds).getLast? ≠ some '_' := by
        simpa [List.getLast?_cons_cons] using hl
      have := ih h2 hl'
      simp only [sep_straddles, Bool.or_eq_false_iff] at this ⊢
      refine ⟨?_, this⟩
      simp only [List.cons_append, List.isPrefixOf] at h1 ⊢
      simp only [Bool.and_true] at h1 ⊢
      rw [h1]; rfl

theorem join_path_cons_eq_nil {s : CStr} (hs : s ≠ []) (k : CStr) (ks : List CStr) :
    join_path s (k :: ks) = [] ↔ k = [] ∧ ks = [] := by
  cases ks with
  | nil => simp [join_path]
  | cons k' ks => simp [join_path, hs]

/-- A key followed by one separator and nothing more: the key is looked up
and the match is rendered. -/
theorem get_json_item_trail (dumps : Json → CStr) (olcf : ngx_json_extractor_loc_t)
    (k : CStr) (json : Json) (h : ngx_strstr k (item_separator olcf) = none)
    (hs : sep_straddles (item_separator olcf) k = false) :
    get_json_item dumps olcf (k ++ item_separator olcf) json =
      (json_object_get json k).bind (json_item_text dumps) := by
  rw [get_json_item_eq]
  unfold get_json_item_body
  have h0 := ngx_strstr_append_sep [] h hs
  rw [List.append_nil] at h0
  rw [h0]
  have h1 : (k ++ item_separator olcf).take k.length = k := by
    rw [List.take_left']; rfl
  have h2 : (k ++ item_separator olcf).drop (k.length + item_separator_len olcf) = [] := by
    rw [item_separator_len_eq, ← List.length_append, List.drop_length]
  simp only [h1, Option.map_some', h2]
  cases hg : json_object_get json k with
  | none => cases json <;> simp [json_is_object]
  | some val => simp [json_is_object_of_get hg]

theorem item_separator_dot (olcf : ngx_json_extractor_loc_t) :
    item_separator { olcf with separator := ['.'] } = ['.'] := rfl

theorem item_separator_unset (olcf : ngx_json_extractor_loc_t) :
    item_separator { olcf with separator := [] } = ['_', '_'] := rfl


/-! ## C1: three keys under the default separator -/

/-- C1 (amended): for every JSON object `D` and keys `a`, `b`, `c` that hold
no `"__"`, with `c` non-empty and neither `a` nor `b` ending in `'_'`, if
`D.a` and `D.a.b` are objects and `D.a.b.c` is `leaf`, then with the
separator unset `get_json_item` on `a__b__c` returns the leaf rendered:
`"1"` for true, `"0"` for false, `""` for null, the contents of a string and
the serialization of any other value. -/
theorem get_json_item_three_keys (dumps : Json → CStr) (olcf : ngx_json_extractor_loc_t)
    (D Da Dab leaf : Json) (a b c : CStr)
    (hsep : olcf.separator = [])
    (ha : ngx_strstr a ['_', '_'] = none) (hb : ngx_strstr b ['_', '_'] = none)
    (hc : ngx_strstr c ['_', '_'] = none) (hcne : c ≠ [])
    (hae : a.getLast? ≠ some '_') (hbe : b.getLast? ≠ some '_')
    (h1 : json_object_get D a = some Da) (h2 : json_object_get Da b = some Dab)
    (h3 : json_object_get Dab c = some leaf) :
    get_json_item dumps olcf (a ++ ['_', '_'] ++ (b ++ ['_', '_'] ++ c)) D =
      some (leaf_text dumps leaf) := by
  have hs : item_separator olcf = ['_', '_'] := by simp [item_separator, hsep]
  have e1 := get_json_item_step dumps olcf a (b ++ ['_', '_'] ++ c) D (by rw [hs]; exact ha)
    (by rw [hs]; exact sep_straddles_default a ha hae) (by simp)
  have e2 := get_json_item_step dumps olcf b c Da (by rw [hs]; exact hb)
    (by rw [hs]; exact sep_straddles_default b hb hbe) hcne
  have e3 := get_json_item_last dumps olcf c Dab (by rw [hs]; exact hc)
  rw [hs] at e1 e2
  rw [e1, h1, Option.some_bind, e2, h2, Option.some_bind, e3, h3, Option.some_bind,
    json_item_text_eq]

/-- C1, witness: `{"a":{"b":{"c":42}}}` with path `a__b__c` gives `"42"`. -/
theorem get_json_item_three_keys_witness :
    get_json_item json_dumps olcf_unset (['a'] ++ ['_', '_'] ++ (['b'] ++ ['_', '_'] ++ ['c']))
      doc_abc = some (leaf_text json_dumps (.integer 42)) ∧
    leaf_text json_dumps (.integer 42) = ['4', '2'] :=
  ⟨get_json_item_three_keys json_dumps olcf_unset doc_abc
      (.object [(['b'], .object [(['c'], .integer 42)])]) (.object [(['c'], .integer 42)])
      (.integer 42) ['a'] ['b'] ['c'] rfl (by decide) (by decide) (by decide) (by decide)
      (by decide) (by decide) rfl rfl rfl,
   by decide⟩

/-- C1, counterexample: the keys `x_`, `b`, `c` are non-empty and hold no
`"__"`, `D.x_` and `D.x_.b` are objects and `D.x_.b.c` is 42, yet
`get_json_item` on `x___b__c` returns NULL: the first `"__"` of the path
starts at the last character of `x_`, and the key looked up is `x`. -/
theorem get_json_item_three_keys_counterexample :
    ngx_strstr ['x', '_'] ['_', '_'] = none ∧ ngx_strstr ['b'] ['_', '_'] = none ∧
    ngx_strstr ['c'] ['_', '_'] = none ∧
    (json_object_get doc_x_bc ['x', '_']).map json_is_object = some true ∧
    ((json_object_get doc_x_bc ['x', '_']).bind (json_object_get · ['b'])).map json_is_object
      = some true ∧
    (((json_object_get doc_x_bc ['x', '_']).bind (json_object_get · ['b'])).bind
      (json_object_get · ['c'])).map (leaf_text json_dumps) = some ['4', '2'] ∧
    get_json_item json_dumps olcf_unset
      (['x', '_'] ++ ['_', '_'] ++ (['b'] ++ ['_', '_'] ++ ['c'])) doc_x_bc = none := by
  decide


/-! ## C5: the separator `"."` against the default separator -/

/-- The same keys joined by `"."` and by `"__"` resolve alike. -/
theorem get_json_item_join (dumps : Json → CStr) (olcf : ngx_json_extractor_loc_t) :
    ∀ (ks : List CStr) (D : Json),
      (∀ k ∈ ks, ngx_strstr k ['.'] = none) →
      (∀ k ∈ ks, ngx_strstr k ['_', '_'] = none) →
      (∀ k ∈ ks.dropLast, k.getLast? ≠ some '_') →
      get_json_item dumps { olcf with separator := ['.'] } (join_path ['.'] ks) D =
        get_json_item dumps { olcf with separator := [] } (join_path ['_', '_'] ks) D := by
  intro ks
  induction ks with
  | nil =>
    intro D _ _ _
    rw [get_json_item_last _ _ _ _ (by rfl), get_json_item_last _ _ _ _ (by rfl)]
    rfl
  | cons k ks ih =>
    intro D hdot hus hend
    have kdot := hdot k (List.mem_cons_self _ _)
    have kus := hus k (List.mem_cons_self _ _)
    cases ks with
    | nil =>
      simp only [join_path]
      rw [get_json_item_last _ _ _ _ (by rw [item_separator_dot]; exact kdot),
        get_json_item_last _ _ _ _ (by rw [item_separator_unset]; exact kus)]
    | cons k' ks =>
      have kend : k.getLast? ≠ some '_' := hend k (by simp [List.dropLast])
      have ih' := fun D => ih D (fun x hx => hdot x (List.mem_cons_of_mem _ hx))
        (fun x hx => hus x (List.mem_cons_of_mem _ hx))
        (fun x hx => hend x (by
          rw [List.dropLast_cons_of_ne_nil (by simp)]
          exact List.mem_cons_of_mem _ hx))
      simp only [join_path] at ih' ⊢
      have sd := sep_straddles_single '.' k
      have su := sep_straddles_default k kus kend
      by_cases hr : k' = [] ∧ ks = []
      · obtain ⟨hk', hks⟩ := hr
        subst hk' hks
        simp only [join_path, List.append_nil]
        have t1 := get_json_item_trail dumps { olcf with separator := ['.'] } k D
          (by rw [item_separator_dot]; exact kdot) (by rw [item_separator_dot]; exact sd)
        have t2 := get_json_item_trail dumps { olcf with separator := [] } k D
          (by rw [item_separator_unset]; exact kus) (by rw [item_separator_unset]; exact su)
        rw [item_separator_dot] at t1
        rw [item_separator_unset] at t2
        rw [t1, t2]
      · have n1 : join_path ['.'] (k' :: ks) ≠ [] := by
          rw [Ne, join_path_cons_eq_nil (by simp)]; exact hr
        have n2 : join_path ['_', '_'] (k' :: ks) ≠ [] := by
          rw [Ne, join_path_cons_eq_nil (by simp)]; exact hr
        have t1 := get_json_item_step dumps { olcf with separator := ['.'] } k _ D
          (by rw [item_separator_dot]; exact kdot) (by rw [item_separator_dot]; exact sd) n1
        have t2 := get_json_item_step dumps { olcf with separator := [] } k _ D
          (by rw [item_separator_unset]; exact kus) (by rw [item_separator_unset]; exact su) n2
        rw [item_separator_dot] at t1
        rw [item_separator_unset] at t2
        rw [t1, t2]
        cases json_object_get D k with
        | none => rfl
        | some val => exact ih' val

/-- C5 (amended): for every JSON document and every list of keys none of
which contains `"."` or `"__"` and none of which, the last one apart, ends in
`'_'`, `get_json_item` with the separator `"."` on the keys joined by `"."`
returns what `get_json_item` with the separator unset returns on the keys
joined by `"__"`. -/
theorem get_json_item_dot_separator (dumps : Json → CStr) (olcf : ngx_json_extractor_loc_t)
    (ks : List CStr) (D : Json)
    (hdot : ∀ k ∈ ks, ngx_strstr k ['.'] = none)
    (hus : ∀ k ∈ ks, ngx_strstr k ['_', '_'] = none)
    (hend : ∀ k ∈ ks.dropLast, k.getLast? ≠ some '_') :
    get_json_item dumps { olcf with separator := ['.'] } (join_path ['.'] ks) D =
      get_json_item dumps { olcf with separator := [] } (join_path ['_', '_'] ks) D :=
  get_json_item_join dumps olcf ks D hdot hus hend

/-- C5, witness: `a.b.c` under `"."` resolves as `a__b__c` under the default,
to `"42"` in `{"a":{"b":{"c":42}}}`. -/
theorem get_json_item_dot_separator_witness :
    get_json_item json_dumps { olcf_unset with separator := ['.'] }
        (join_path ['.'] [['a'], ['b'], ['c']]) doc_abc =
      get_json_item json_dumps { olcf_unset with separator := [] }
        (join_path ['_', '_'] [['a'], ['b'], ['c']]) doc_abc ∧
    join_path ['.'] [['a'], ['b'], ['c']] = ['a', '.', 'b', '.', 'c'] ∧
    get_json_item json_dumps { olcf_unset with separator := ['.'] }
        ['a', '.', 'b', '.', 'c'] doc_abc = some ['4', '2'] :=
  ⟨get_json_item_dot_separator json_dumps olcf_unset [['a'], ['b'], ['c']] doc_abc
      (by decide) (by decide) (by decide),
   by decide, by decide⟩

/-- C5, counterexample: the keys `a_` and `b` contain neither `"."` nor
`"__"`; under the separator `"."` the path `a_.b` gives `"1"` in
`{"a_": {"b": 1}}`, under the default separator the path `a___b` gives NULL. -/
theorem get_json_item_dot_separator_counterexample :
    (∀ k ∈ [['a', '_'], ['b']], ngx_strstr k ['.'] = none ∧ ngx_strstr k ['_', '_'] = none) ∧
    join_path ['.'] [['a', '_'], ['b']] = ['a', '_', '.', 'b'] ∧
    join_path ['_', '_'] [['a', '_'], ['b']] = ['a', '_', '_', '_', 'b'] ∧
    get_json_item json_dumps { olcf_unset with separator := ['.'] }
      (join_path ['.'] [['a', '_'], ['b']]) doc_a_b = some ['1'] ∧
    get_json_item json_dumps { olcf_unset with separator := [] }
      (join_path ['_', '_'] [['a', '_'], ['b']]) doc_a_b = none := by
  decide

/-! ## C10: a trailing separator -/

/-- The trailing-separator property, by induction on a bound `n` on the
length of the path. -/
theorem get_json_item_trailing (dumps : Json → CStr) (olcf : ngx_json_extractor_loc_t) :
    ∀ (n : Nat) (p : CStr) (D : Json), p.length ≤ n →
      ¬ item_separator olcf <:+ p →
      sep_straddles (item_separator olcf) p = false →
      get_json_item dumps olcf (p ++ item_separator olcf) D = get_json_item dumps olcf p D := by
  intro n
  induction n with
  | zero =>
    intro p D hn _ _
    have hp : p = [] := List.length_eq_zero.mp (Nat.le_zero.mp hn)
    subst hp
    have hnone : ngx_strstr [] (item_separator olcf) = none := by
      have := item_separator_ne_nil olcf
      cases hs : item_separator olcf with
      | nil => exact absurd hs this
      | cons c cs => simp [ngx_strstr]
    have t := get_json_item_trail dumps olcf [] D hnone rfl
    rw [get_json_item_last dumps olcf [] D hnone]
    exact t
  | succ n ih =>
    intro p D hn hend hstr
    cases hs : ngx_strstr p (item_separator olcf) with
    | none =>
      rw [get_json_item_trail dumps olcf p D hs hstr, get_json_item_last dumps olcf p D hs]
    | some i =>
      obtain ⟨hpre, hle⟩ := ngx_strstr_some hs
      have hs' := ngx_strstr_append_of_some hs hstr
      have hpos := item_separator_len_pos olcf
      have hleq := item_separator_len_eq olcf
      -- what follows the first separator of `p`
      have hsplit : p = p.take i ++ (item_separator olcf ++
          p.drop (i + item_separator_len olcf)) := by
        obtain ⟨t, ht⟩ := hpre
        have h1 : p = p.take i ++ p.drop i := (List.take_append_drop i p).symm
        have h2 : p.drop (i + item_separator_len olcf) = t := by
          rw [← List.drop_drop, ← ht, hleq, List.drop_left]
        rw [h2, ht]; exact h1
      cases hd : p.drop (i + item_separator_len olcf) with
      | nil =>
        exfalso
        apply hend
        rw [hd, List.append_nil] at hsplit
        exact ⟨p.take i, hsplit.symm⟩
      | cons c cs =>
        have hq1 : (c :: cs).length ≤ n := by
          have : (c :: cs).length = p.length - (i + item_separator_len olcf) := by
            rw [← hd, List.length_drop]
          omega
        have hq2 : ¬ item_separator olcf <:+ (c :: cs) := by
          intro hsuf
          apply hend
          rw [← hd] at hsuf
          exact hsuf.trans (List.drop_suffix _ _)
        have hq3 : sep_straddles (item_separator olcf) (c :: cs) = false := by
          rw [← hd]; exact sep_straddles_drop _ hstr
        have hrec := fun val => ih (c :: cs) val hq1 hq2 hq3
        rw [get_json_item_eq dumps olcf (p ++ item_separator olcf),
          get_json_item_eq dumps olcf p]
        unfold get_json_item_body
        rw [hs, hs']
        have ht : (p ++ item_separator olcf).take i = p.take i := by
          rw [List.take_append_of_le_length (by omega)]
        have hdr : (p ++ item_separator olcf).drop (i + item_separator_len olcf) =
            c :: (cs ++ item_separator olcf) := by
          rw [List.drop_append_of_le_length (by omega), hd]; rfl
        simp only [ht, Option.map_some', hdr, hd]
        split
        · rfl
        · cases json_object_get D (p.take i) with
          | none => rfl
          | some val => exact hrec val

/-- C10 (amended): for every JSON value `D`, every separator `s` (configured,
or the default `"__"`) and every path `p` that does not end with `s` and in
which no occurrence of `s` in `p` followed by `s` starts inside `p` and ends
past it (for `"__"`: `p` does not end in `'_'`), `get_json_item` on `p`
followed by one copy of `s` returns what `get_json_item` returns on `p`. -/
theorem get_json_item_trailing_separator (dumps : Json → CStr)
    (olcf : ngx_json_extractor_loc_t) (p : CStr) (D : Json)
    (hend : ¬ item_separator olcf <:+ p)
    (hstr : sep_straddles (item_separator olcf) p = false) :
    get_json_item dumps olcf (p ++ item_separator olcf) D = get_json_item dumps olcf p D :=
  get_json_item_trailing dumps olcf p.length p D (Nat.le_refl _) hend hstr

/-- C10, witness: `a__b__` resolves as `a__b` does, to `{"c": 42}` rendered. -/
theorem get_json_item_trailing_separator_witness :
    get_json_item json_dumps olcf_unset (['a', '_', '_', 'b'] ++ item_separator olcf_unset)
        doc_abc =
      get_json_item json_dumps olcf_unset ['a', '_', '_', 'b'] doc_abc ∧
    get_json_item json_dumps olcf_unset ['a', '_', '_', 'b'] doc_abc =
      some ['{', '"', 'c', '"', ':', ' ', '4', '2', '}'] :=
  ⟨get_json_item_trailing_separator json_dumps olcf_unset ['a', '_', '_', 'b'] doc_abc
      (by decide) (by decide),
   by decide⟩

/-- C10, counterexample: the path `a_` does not end with the default
separator `"__"`; in `{"a_": 1}` it resolves to `"1"`, and followed by one
`"__"` it resolves to NULL (the key looked up is `a`). -/
theorem get_json_item_trailing_separator_counterexample :
    item_separator olcf_unset = ['_', '_'] ∧
    ¬ item_separator olcf_unset <:+ ['a', '_'] ∧
    get_json_item json_dumps olcf_unset ['a', '_'] doc_a_ = some ['1'] ∧
    get_json_item json_dumps olcf_unset (['a', '_'] ++ item_separator olcf_unset) doc_a_
      = none := by
  decide


/-! ## C2, C3: the default value -/

theorem get_json_item_lacks_final_key (dumps : Json → CStr) (olcf : ngx_json_extractor_loc_t)
    {text : CStr} {json : Json} (h : lacks_final_key olcf text json) :
    get_json_item dumps olcf text json = none := by
  induction h with
  | final text json hobj hrest hget =>
    rw [get_json_item_eq]
    unfold get_json_item_body
    unfold item_key at hget
    rw [hget]
    simp
  | inner text json val c cs hget hrest _ ih =>
    rw [get_json_item_eq]
    unfold get_json_item_body
    unfold item_key at hget
    unfold item_rest at hrest
    rw [hget, hrest]
    simp [json_is_object_of_get hget, ih]

theorem get_json_item_meets_non_object (dumps : Json → CStr)
    (olcf : ngx_json_extractor_loc_t) {text : CStr} {json : Json}
    (h : meets_non_object olcf text json) :
    get_json_item dumps olcf text json = none := by
  induction h with
  | here text json hobj =>
    rw [get_json_item_eq]
    unfold get_json_item_body
    simp [hobj]
  | inner text json val c cs hget hrest _ ih =>
    rw [get_json_item_eq]
    unfold get_json_item_body
    unfold item_key at hget
    unfold item_rest at hrest
    rw [hget, hrest]
    simp [json_is_object_of_get hget, ih]

/-- What `ngx_http_json_extract_var` does when `get_json_item` returns NULL,
on a request whose pool is there and for a name whose copy `ngx_pfree` does
not release. -/
theorem ngx_http_json_extract_var_null (env : Env) (lookup : Lookup) (r r1 : Request)
    (vi data h : Nat) (vv : ngx_http_variable_t) (doc : Json)
    (hdata : data ≠ 0) (hvar : get_head_var env vi = some vv)
    (hjson : get_json env lookup r data = (r1, VData.json h doc))
    (hpool : r1.pool_null = false) (hkept : stext_released env vv.name = false)
    (hnull : get_json_item env.dumps env.olcf (json_var_path env.olcf vv.name) doc = none) :
    ngx_http_json_extract_var env lookup r vi data =
      if env.use_default_value then
        (set_variable r1 vi
          { len := env.olcf.default_val.length, valid := true, no_cacheable := false,
            not_found := false, data := VData.text env.olcf.default_val }, NGX_OK)
      else ({ r1 with fault := true }, NGX_ERROR) := by
  unfold ngx_http_json_extract_var
  simp only [hdata, if_false, hvar, hjson, hpool, hkept, Bool.false_eq_true, hnull]

/-- The default value for a missing final key: with the default-value feature
enabled, on a request whose pool is there and for a variable name whose copy
`ngx_pfree` does not release, when the descriptor resolves to a parsed
document and the traversal of the variable's path reaches an object that
lacks the final key, `ngx_http_json_extract_var` returns `NGX_OK` and sets
the variable to the configured default value: `data` is the default, `len`
its length, `valid` is 1 and `not_found` is 0. -/
theorem ngx_http_json_extract_var_default (env : Env) (lookup : Lookup) (r r1 : Request)
    (vi data h : Nat) (vv : ngx_http_variable_t) (doc : Json)
    (hfeature : env.use_default_value = true)
    (hdata : data ≠ 0) (hvar : get_head_var env vi = some vv)
    (hjson : get_json env lookup r data = (r1, VData.json h doc))
    (hpool : r1.pool_null = false) (hkept : stext_released env vv.name = false)
    (hmiss : lacks_final_key env.olcf (json_var_path env.olcf vv.name) doc) :
    (ngx_http_json_extract_var env lookup r vi data).2 = NGX_OK ∧
    ((ngx_http_json_extract_var env lookup r vi data).1.variables_ vi).data =
      VData.text env.olcf.default_val ∧
    ((ngx_http_json_extract_var env lookup r vi data).1.variables_ vi).len =
      env.olcf.default_val.length ∧
    ((ngx_http_json_extract_var env lookup r vi data).1.variables_ vi).valid = true ∧
    ((ngx_http_json_extract_var env lookup r vi data).1.variables_ vi).not_found = false := by
  rw [ngx_http_json_extract_var_null env lookup r r1 vi data h vv doc hdata hvar hjson hpool
    hkept (get_json_item_lacks_final_key _ _ hmiss), hfeature]
  simp [set_variable]

/-- The getter on a variable name whose copy `ngx_pfree` releases: the
descriptor resolves to a parsed document, and `get_json_item` is then called
on the released copy, whatever the document and the path are. -/
theorem ngx_http_json_extract_var_reads_released (env : Env) (lookup : Lookup)
    (r r1 : Request) (vi data h : Nat) (vv : ngx_http_variable_t) (doc : Json)
    (hdata : data ≠ 0) (hvar : get_head_var env vi = some vv)
    (hjson : get_json env lookup r data = (r1, VData.json h doc))
    (hpool : r1.pool_null = false) (hrel : stext_released env vv.name = true) :
    (ngx_http_json_extract_var env lookup r vi data).1.fault = true := by
  unfold ngx_http_json_extract_var
  simp only [hdata, if_false, hvar, hjson, hpool, hrel, Bool.false_eq_true, if_true]

/-- C3 (amended): when the traversal of the variable's path meets a value that
is not an object where an object is expected, `get_json_item` returns NULL,
as it does for a missing key; with the default-value feature enabled, on a
request whose pool is there and for a variable name whose copy `ngx_pfree`
does not release, `ngx_http_json_extract_var` then returns `NGX_OK` with the
variable set to the configured default value. -/
theorem ngx_http_json_extract_var_non_object (env : Env) (lookup : Lookup) (r r1 : Request)
    (vi data h : Nat) (vv : ngx_http_variable_t) (doc : Json)
    (hfeature : env.use_default_value = true)
    (hdata : data ≠ 0) (hvar : get_head_var env vi = some vv)
    (hjson : get_json env lookup r data = (r1, VData.json h doc))
    (hpool : r1.pool_null = false) (hkept : stext_released env vv.name = false)
    (hmeet : meets_non_object env.olcf (json_var_path env.olcf vv.name) doc) :
    get_json_item env.dumps env.olcf (json_var_path env.olcf vv.name) doc = none ∧
    (ngx_http_json_extract_var env lookup r vi data).2 = NGX_OK ∧
    ((ngx_http_json_extract_var env lookup r vi data).1.variables_ vi) =
      { len := env.olcf.default_val.length, valid := true, no_cacheable := false,
        not_found := false, data := VData.text env.olcf.default_val } := by
  have hnull := get_json_item_meets_non_object env.dumps env.olcf hmeet
  refine ⟨hnull, ?_⟩
  rw [ngx_http_json_extract_var_null env lookup r r1 vi data h vv doc hdata hvar hjson hpool
    hkept hnull, hfeature]
  simp [set_variable]

/-! ## Steps of the module and of the host -/

theorem get_json_step {R : Request → Request → Prop} (hR : StepInvariant R) (env : Env)
    (lookup : Lookup) (hl : ∀ r i, R r (lookup r i).1) (r : Request) (data : Nat) :
    R r (get_json env lookup r data).1 := by
  unfold get_json
  split
  · next it _ =>
    have := hl r it.index
    split <;> simp_all
  · exact hR.refl r

theorem json_desc_source_step {R : Request → Request → Prop} (hR : StepInvariant R)
    (env : Env) (lookup : Lookup) (hl : ∀ r i, R r (lookup r i).1) (r : Request)
    (data : Nat) : R r (json_desc_source env lookup r data).1 := by
  unfold json_desc_source
  simp only
  split
  · split
    · exact hR.refl r
    · next jit _ =>
      split
      · exact hR.refl r
      · have := hl r jit.data_index
        split
        · simp_all
        · next r1 v hv =>
          rw [hv] at this
          split
          · exact this
          · exact hR.trans _ _ _ this (hR.fault r1)
          · exact hR.trans _ _ _ this (hR.fault r1)
  · exact hR.refl r

theorem ngx_http_json_desc_step {R : Request → Request → Prop} (hR : StepInvariant R)
    (env : Env) (lookup : Lookup) (hl : ∀ r i, R r (lookup r i).1) (r : Request)
    (vi data : Nat) : R r (ngx_http_json_desc env lookup r vi data).1 := by
  unfold ngx_http_json_desc
  split
  · exact hR.refl r
  · have h1 := hR.register r
    simp only
    split
    · next r1 hreg => rw [hreg] at h1; exact h1
    · next r1 hreg =>
      rw [hreg] at h1
      have h2 := json_desc_source_step hR env lookup hl r1 data
      split
      · next r2 hsrc => rw [hsrc] at h2; exact hR.trans _ _ _ h1 h2
      · next r2 nm hsrc =>
        rw [hsrc] at h2
        have h3 := hR.loads env r2 (strip nm)
        have h12 := hR.trans _ _ _ h1 h2
        split
        · next r3 hld => rw [hld] at h3; exact hR.trans _ _ _ h12 h3
        · next r3 json _ hld =>
          rw [hld] at h3
          exact hR.trans _ _ _ (hR.trans _ _ _ h12 h3) (hR.set_var _ _ _)

theorem ngx_http_json_extract_var_step {R : Request → Request → Prop}
    (hR : StepInvariant R) (env : Env) (lookup : Lookup) (hl : ∀ r i, R r (lookup r i).1)
    (r : Request) (vi data : Nat) :
    R r (ngx_http_json_extract_var env lookup r vi data).1 := by
  unfold ngx_http_json_extract_var
  split
  · exact hR.refl r
  · split
    · exact hR.refl r
    · have h1 := get_json_step hR env lookup hl r data
      split
      · next r1 hj => rw [hj] at h1; exact h1
      · next r1 _ hj => rw [hj] at h1; exact hR.trans _ _ _ h1 (hR.fault r1)
      · next r1 _ j hj =>
        rw [hj] at h1
        split
        · exact hR.trans _ _ _ h1 (hR.fault r1)
        · split
          · exact hR.trans _ _ _ h1 (hR.fault r1)
          · split
            · split
              · exact hR.trans _ _ _ h1 (hR.set_var _ _ _)
              · exact hR.trans _ _ _ h1 (hR.fault r1)
            · exact hR.trans _ _ _ h1 (hR.set_var _ _ _)

/-- An invariant of the steps holds across the host's lookup, whatever
getters it runs. -/
theorem ngx_http_get_indexed_variable_step {R : Request → Request → Prop}
    (hR : StepInvariant R) (env : Env) :
    ∀ (depth : Nat) (r : Request) (index : Nat),
      R r (ngx_http_get_indexed_variable env depth r index).1 := by
  intro depth
  induction depth with
  | zero =>
    intro r index
    unfold ngx_http_get_indexed_variable
    split
    · exact hR.refl r
    · split <;> exact hR.refl r
  | succ d ih =>
    intro r index
    unfold ngx_http_get_indexed_variable
    split
    · exact hR.refl r
    · split
      · exact hR.refl r
      · simp only
        split
        · exact hR.refl r
        · next v _ =>
          have hres : R r (match v.get_handler with
              | .json_desc =>
                ngx_http_json_desc env (ngx_http_get_indexed_variable env d) r index v.data
              | .json_extract_var =>
                ngx_http_json_extract_var env (ngx_http_get_indexed_variable env d)
                  r index v.data
              | .host none => (r, NGX_ERROR)
              | .host (some val) => (set_variable r index val, NGX_OK)).1 := by
            split
            · exact ngx_http_json_desc_step hR env _ ih r index v.data
            · exact ngx_http_json_extract_var_step hR env _ ih r index v.data
            · exact hR.refl r
            · exact hR.set_var _ _ _
          split
          · split
            · exact hR.trans _ _ _ hres (hR.set_var _ _ _)
            · exact hres
          · exact hR.trans _ _ _ hres (hR.set_var _ _ _)


/-! ## The cleanup list and the decode log across a step -/

theorem cleanup_any_of_count_pos {l : List cleanup_pt} (h : 1 ≤ cleanup_count l) :
    l.any (fun h => h == cleanup_pt.json_extractor_module_cleanup) = true := by
  unfold cleanup_count at h
  have hm : cleanup_pt.json_extractor_module_cleanup ∈ l := List.count_pos_iff.mp h
  exact List.any_eq_true.mpr
    ⟨cleanup_pt.json_extractor_module_cleanup, hm, beq_self_eq_true _⟩

/-- The cleanup block of `ngx_http_json_desc` leaves the variable slots and
the logs of the request as they are. -/
theorem register_cleanup_frame (r : Request) :
    (register_cleanup r).1.variables_ = r.variables_ ∧
    (register_cleanup r).1.decoded = r.decoded ∧
    (register_cleanup r).1.deleted = r.deleted := by
  unfold register_cleanup
  by_cases hpool : r.pool_null = true
  · rw [if_pos hpool]
    exact ⟨rfl, rfl, rfl⟩
  rw [if_neg hpool]
  by_cases hany : r.cleanup.any (fun h => h == cleanup_pt.json_extractor_module_cleanup) = true
  · rw [if_pos hany]
    exact ⟨rfl, rfl, rfl⟩
  · rw [if_neg hany]
    unfold ngx_pool_cleanup_add
    cases hplan : r.cleanup_alloc with
    | nil => exact ⟨rfl, rfl, rfl⟩
    | cons b plan => cases b <;> exact ⟨rfl, rfl, rfl⟩

theorem register_cleanup_decoded (r : Request) :
    (register_cleanup r).1.decoded = r.decoded :=
  (register_cleanup_frame r).2.1

theorem decoded_step_invariant : StepInvariant decoded_step where
  refl := fun r => ⟨[], by simp, by simp⟩
  trans := by
    rintro a b c ⟨l1, h1, h1'⟩ ⟨l2, h2, h2'⟩
    refine ⟨l1 ++ l2, by rw [h2, h1, List.append_assoc], ?_⟩
    intro e he
    rcases List.mem_append.mp he with he | he
    · exact h1' e he
    · exact h2' e he
  set_var := fun r _ _ => ⟨[], by simp [set_variable], by simp⟩
  register := fun r => ⟨[], by simp [register_cleanup_decoded], by simp⟩
  loads := by
    intro env r t
    refine ⟨[(t, JSON_DECODE_ANY)], ?_, by simp⟩
    unfold json_loads
    simp only
    split <;> rfl
  fault := fun r => ⟨[], by simp, by simp⟩

/-- The getter when the decoder rejects the text it is given. -/
theorem ngx_http_json_desc_rejected (env : Env) (lookup : Lookup) (r r1 r2 : Request)
    (vi data : Nat) (nm : CStr) (hdata : data ≠ 0)
    (hreg : register_cleanup r = (r1, true))
    (hsrc : json_desc_source env lookup r1 data = (r2, some nm))
    (hrej : env.loads (strip nm) JSON_DECODE_ANY = none) :
    ngx_http_json_desc env lookup r vi data =
      ({ r2 with decoded := r2.decoded ++ [(strip nm, JSON_DECODE_ANY)] }, NGX_ERROR) := by
  unfold ngx_http_json_desc
  rw [if_neg hdata]
  simp only [hreg, hsrc, json_loads, hrej]

/-- The getter when the decoder accepts the text it is given. -/
theorem ngx_http_json_desc_accepted (env : Env) (lookup : Lookup) (r r1 r2 : Request)
    (vi data : Nat) (nm : CStr) (doc : Json) (hdata : data ≠ 0)
    (hreg : register_cleanup r = (r1, true))
    (hsrc : json_desc_source env lookup r1 data = (r2, some nm))
    (hdec : env.loads (strip nm) JSON_DECODE_ANY = some doc) :
    ngx_http_json_desc env lookup r vi data =
      (set_variable { r2 with decoded := r2.decoded ++ [(strip nm, JSON_DECODE_ANY)] } vi
        { len := 0, valid := true, no_cacheable := false, not_found := false,
          data := VData.json r2.decoded.length doc }, NGX_OK) := by
  unfold ngx_http_json_desc
  rw [if_neg hdata]
  simp only [hreg, hsrc, json_loads, hdec]

/-- The lookup of a slot that is valid or marked not found returns the slot
and changes nothing. -/
theorem ngx_http_get_indexed_variable_settled (env : Env) (depth : Nat) (r : Request)
    (index : Nat) (hidx : index < env.variables_.length)
    (hset : ((r.variables_ index).not_found || (r.variables_ index).valid) = true) :
    ngx_http_get_indexed_variable env depth r index = (r, some (r.variables_ index)) := by
  unfold ngx_http_get_indexed_variable
  rw [if_neg (by omega), if_pos hset]

/-- The lookup of a descriptor's slot that is not yet evaluated runs
`ngx_http_json_desc`. -/
theorem ngx_http_get_indexed_variable_desc (env : Env) (depth : Nat) (r : Request)
    (index : Nat) (dv : ngx_http_variable_t)
    (hv : env.variables_.get? index = some dv) (hh : dv.get_handler = get_handler_pt.json_desc)
    (hvalid : (r.variables_ index).valid = false)
    (hfound : (r.variables_ index).not_found = false) :
    ngx_http_get_indexed_variable env (depth + 1) r index =
      (let res := ngx_http_json_desc env (ngx_http_get_indexed_variable env depth) r index
          dv.data
       if res.2 = NGX_OK then
         (let r1 :=
            if dv.flags &&& NGX_HTTP_VAR_NOCACHEABLE ≠ 0 then
              set_variable res.1 index { res.1.variables_ index with no_cacheable := true }
            else res.1
          (r1, some (r1.variables_ index)))
       else
         (set_variable res.1 index
           { res.1.variables_ index with valid := false, not_found := true }, none)) := by
  have hidx : index < env.variables_.length := by
    obtain ⟨h, _⟩ := List.get?_eq_some.mp hv
    exact h
  conv_lhs => unfold ngx_http_get_indexed_variable
  rw [if_neg (by omega)]
  simp only [hvalid, hfound, Bool.or_self, Bool.false_eq_true, if_false, hv, hh]

theorem get_json_found (env : Env) (lookup : Lookup) (r : Request) (data : Nat)
    (it : je_item_t) (hit : get_item_by_data env.olcf data = some it) :
    get_json env lookup r data =
      (match lookup r it.index with
       | (r1, none) => (r1, VData.null)
       | (r1, some vv) => (r1, vv.data)) := by
  unfold get_item_by_data at hit
  unfold get_json
  rw [hit]


/-! ## C4: a source the decoder rejects -/

/-- The lookup of a descriptor's slot, not yet evaluated, when the decoder
rejects the source. -/
theorem ngx_http_get_indexed_variable_rejected (env : Env) (depth : Nat)
    (r r1 r2 : Request) (data : Nat) (index : Nat) (dv : ngx_http_variable_t) (nm : CStr)
    (hdata : data ≠ 0)
    (hv : env.variables_.get? index = some dv)
    (hh : dv.get_handler = get_handler_pt.json_desc) (hd : dv.data = data)
    (hvalid : (r.variables_ index).valid = false)
    (hfound : (r.variables_ index).not_found = false)
    (hreg : register_cleanup r = (r1, true))
    (hsrc : json_desc_source env (ngx_http_get_indexed_variable env depth) r1 data
      = (r2, some nm))
    (hrej : env.loads (strip nm) JSON_DECODE_ANY = none) :
    ngx_http_get_indexed_variable env (depth + 1) r index =
      (set_variable { r2 with decoded := r2.decoded ++ [(strip nm, JSON_DECODE_ANY)] } index
        { r2.variables_ index with valid := false, not_found := true }, none) := by
  rw [ngx_http_get_indexed_variable_desc env depth r index dv hv hh hvalid hfound, hd,
    ngx_http_json_desc_rejected env _ r r1 r2 index data nm hdata hreg hsrc hrej]
  simp [NGX_ERROR, NGX_OK]

/-- C4: when the decoder rejects the source text of a descriptor,
`ngx_http_json_desc` returns `NGX_ERROR` and stores nothing in a variable
slot, and `ngx_http_json_extract_var` for a binding on that descriptor
returns `NGX_ERROR` and leaves the binding's slot as it was, whatever the
configured default value and whether or not the default-value feature is
enabled; so does every later binding on the descriptor in the same request.
Here `r1` is the request after the cleanup block of the getter and `r2`
after the source text `nm` has been resolved (for a literal source both have
the slots of `r`). -/
theorem json_parse_error_unavailable (env : Env) (depth : Nat) (r r1 r2 : Request)
    (data : Nat) (it : je_item_t) (dv : ngx_http_variable_t) (nm : CStr)
    (hdata : data ≠ 0)
    (hit : get_item_by_data env.olcf data = some it)
    (hv : env.variables_.get? it.index = some dv)
    (hh : dv.get_handler = get_handler_pt.json_desc) (hd : dv.data = data)
    (hvalid : (r.variables_ it.index).valid = false)
    (hfound : (r.variables_ it.index).not_found = false)
    (hreg : register_cleanup r = (r1, true))
    (hsrc : json_desc_source env (ngx_http_get_indexed_variable env depth) r1 data
      = (r2, some nm))
    (hnull : (r2.variables_ it.index).data = VData.null)
    (hrej : env.loads (strip nm) JSON_DECODE_ANY = none) :
    ((ngx_http_json_desc env (ngx_http_get_indexed_variable env depth) r it.index data).2
        = NGX_ERROR ∧
      (ngx_http_json_desc env (ngx_http_get_indexed_variable env depth) r it.index data).1.variables_
        = r2.variables_) ∧
    ((env.mem data).head? ≠ some '$' → r2.variables_ = r.variables_) ∧
    (∀ (vj : Nat) (vv : ngx_http_variable_t), get_head_var env vj = some vv → vj ≠ it.index →
      (ngx_http_json_extract_var env (ngx_http_get_indexed_variable env (depth + 1))
          r vj data).2 = NGX_ERROR ∧
      (ngx_http_json_extract_var env (ngx_http_get_indexed_variable env (depth + 1))
          r vj data).1.variables_ vj = r2.variables_ vj ∧
      ∀ (vk : Nat) (d : Nat),
        ngx_http_json_extract_var env (ngx_http_get_indexed_variable env d)
          (ngx_http_json_extract_var env (ngx_http_get_indexed_variable env (depth + 1))
            r vj data).1 vk data =
        ((ngx_http_json_extract_var env (ngx_http_get_indexed_variable env (depth + 1))
            r vj data).1, NGX_ERROR)) := by
  have hidx : it.index < env.variables_.length := (List.get?_eq_some.mp hv).1
  refine ⟨?_, ?_, ?_⟩
  · rw [ngx_http_json_desc_rejected env _ r r1 r2 it.index data nm hdata hreg hsrc hrej]
    exact ⟨rfl, rfl⟩
  · intro hlit
    have h1 : r1.variables_ = r.variables_ := by
      have : (register_cleanup r).1.variables_ = r.variables_ :=
        (register_cleanup_frame r).1
      rw [hreg] at this; exact this
    unfold json_desc_source at hsrc
    simp only [hlit, if_false] at hsrc
    have : r1 = r2 := congrArg Prod.fst hsrc
    rw [← this]; exact h1
  · intro vj vv hvar hne
    have hlook := ngx_http_get_indexed_variable_rejected env depth r r1 r2 data it.index dv nm
      hdata hv hh hd hvalid hfound hreg hsrc hrej
    have hfirst : ngx_http_json_extract_var env (ngx_http_get_indexed_variable env (depth + 1))
        r vj data =
        (set_variable { r2 with decoded := r2.decoded ++ [(strip nm, JSON_DECODE_ANY)] }
          it.index { r2.variables_ it.index with valid := false, not_found := true },
         NGX_ERROR) := by
      unfold ngx_http_json_extract_var
      rw [if_neg hdata]
      simp only [hvar, get_json_found env _ r data it hit, hlook]
    rw [hfirst]
    refine ⟨rfl, ?_, ?_⟩
    · simp [set_variable, hne]
    · intro vk d
      unfold ngx_http_json_extract_var
      rw [if_neg hdata]
      cases hk : get_head_var env vk with
      | none => rfl
      | some vw =>
        simp only
        rw [get_json_found env _ _ data it hit,
          ngx_http_get_indexed_variable_settled env d _ it.index hidx
            (by simp [set_variable])]
        simp [set_variable, hnull]


/-! ## C6: one decode per descriptor and request -/

theorem register_cleanup_logs (r : Request) :
    (register_cleanup r).1.variables_ = r.variables_ ∧
    (register_cleanup r).1.decoded = r.decoded ∧
    (register_cleanup r).1.deleted = r.deleted :=
  register_cleanup_frame r

/-- For a literal source the text is resolved without a step. -/
theorem json_desc_source_literal (env : Env) (lookup : Lookup) (r1 r2 : Request)
    (data : Nat) (nm : CStr) (hlit : (env.mem data).head? ≠ some '$')
    (hsrc : json_desc_source env lookup r1 data = (r2, some nm)) :
    r2 = r1 ∧ nm = env.mem data := by
  unfold json_desc_source at hsrc
  simp only [hlit, if_false] at hsrc
  have h1 : r1 = r2 := congrArg Prod.fst hsrc
  have h2 : some (env.mem data) = some nm := congrArg Prod.snd hsrc
  exact ⟨h1.symm, (Option.some.inj h2).symm⟩

/-- The lookup of a descriptor's slot, not yet evaluated, when the decoder
accepts the source: the slot it returns and the logs it leaves. -/
theorem ngx_http_get_indexed_variable_accepted (env : Env) (depth : Nat)
    (r r1 r2 : Request) (data : Nat) (index : Nat) (dv : ngx_http_variable_t) (nm : CStr)
    (doc : Json) (hdata : data ≠ 0)
    (hv : env.variables_.get? index = some dv)
    (hh : dv.get_handler = get_handler_pt.json_desc) (hd : dv.data = data)
    (hvalid : (r.variables_ index).valid = false)
    (hfound : (r.variables_ index).not_found = false)
    (hreg : register_cleanup r = (r1, true))
    (hsrc : json_desc_source env (ngx_http_get_indexed_variable env depth) r1 data
      = (r2, some nm))
    (hdec : env.loads (strip nm) JSON_DECODE_ANY = some doc) :
    ∃ (r3 : Request) (vv : ngx_http_variable_value_t),
      ngx_http_get_indexed_variable env (depth + 1) r index = (r3, some vv) ∧
      vv = r3.variables_ index ∧
      vv.data = VData.json r2.decoded.length doc ∧ vv.valid = true ∧
      r3.decoded = r2.decoded ++ [(strip nm, JSON_DECODE_ANY)] ∧
      r3.deleted = r2.deleted ∧ r3.fault = r2.fault ∧ r3.cleanup = r2.cleanup ∧
      ∀ j, j ≠ index → r3.variables_ j = r2.variables_ j := by
  rw [ngx_http_get_indexed_variable_desc env depth r index dv hv hh hvalid hfound, hd,
    ngx_http_json_desc_accepted env _ r r1 r2 index data nm doc hdata hreg hsrc hdec]
  simp only [if_true]
  by_cases hf : dv.flags &&& NGX_HTTP_VAR_NOCACHEABLE ≠ 0
  · rw [if_pos hf]
    refine ⟨_, _, rfl, rfl, ?_, ?_, rfl, rfl, rfl, rfl, ?_⟩
    · simp [set_variable]
    · simp [set_variable]
    · intro j hj; simp [set_variable, hj]
  · rw [if_neg hf]
    refine ⟨_, _, rfl, rfl, ?_, ?_, rfl, rfl, rfl, rfl, ?_⟩
    · simp [set_variable]
    · simp [set_variable]
    · intro j hj; simp [set_variable, hj]

/-- Once the descriptor's slot is valid, `get_json` returns what it holds and
changes nothing, any number of times. -/
theorem get_json_times_settled (env : Env) (data : Nat) (it : je_item_t)
    (hit : get_item_by_data env.olcf data = some it)
    (hidx : it.index < env.variables_.length) (d : Nat) :
    ∀ (n : Nat) (r : Request), (r.variables_ it.index).valid = true →
      get_json_times env (ngx_http_get_indexed_variable env d) data n r =
        (r, List.replicate n (r.variables_ it.index).data) := by
  intro n
  induction n with
  | zero => intro r _; rfl
  | succ n ih =>
    intro r hvalid
    have h1 : get_json env (ngx_http_get_indexed_variable env d) r data =
        (r, (r.variables_ it.index).data) := by
      rw [get_json_found env _ r data it hit,
        ngx_http_get_indexed_variable_settled env d r it.index hidx (by simp [hvalid])]
    simp only [get_json_times, h1, ih r hvalid, List.replicate_succ]

/-- C6: on a request in which the slot of a registered descriptor is not yet
evaluated and whose source the decoder accepts, the first `get_json` calls
the decoder once, on the stripped source with `JSON_DECODE_ANY`, and returns
the handle of the document decoded; every later `get_json` on the request,
any number of times, returns the same handle and leaves the request, its
decode log included, as it was. The request is arbitrary but for the slot
not being evaluated, so on another request the first `get_json` decodes
again. Here `r1` is the request after the cleanup block of the getter and
`r2` after the source text `nm` has been resolved; for a literal source the
decode log of `r2` is that of `r`. -/
theorem get_json_decodes_once (env : Env) (depth : Nat) (r r1 r2 : Request)
    (data : Nat) (it : je_item_t) (dv : ngx_http_variable_t) (nm : CStr) (doc : Json)
    (hdata : data ≠ 0)
    (hit : get_item_by_data env.olcf data = some it)
    (hv : env.variables_.get? it.index = some dv)
    (hh : dv.get_handler = get_handler_pt.json_desc) (hd : dv.data = data)
    (hvalid : (r.variables_ it.index).valid = false)
    (hfound : (r.variables_ it.index).not_found = false)
    (hreg : register_cleanup r = (r1, true))
    (hsrc : json_desc_source env (ngx_http_get_indexed_variable env depth) r1 data
      = (r2, some nm))
    (hdec : env.loads (strip nm) JSON_DECODE_ANY = some doc) :
    (get_json env (ngx_http_get_indexed_variable env (depth + 1)) r data).2
      = VData.json r2.decoded.length doc ∧
    (get_json env (ngx_http_get_indexed_variable env (depth + 1)) r data).1.decoded
      = r2.decoded ++ [(strip nm, JSON_DECODE_ANY)] ∧
    ((env.mem data).head? ≠ some '$' → r2.decoded = r.decoded ∧ nm = env.mem data) ∧
    ∀ (n d : Nat),
      get_json_times env (ngx_http_get_indexed_variable env d) data n
          (get_json env (ngx_http_get_indexed_variable env (depth + 1)) r data).1 =
        ((get_json env (ngx_http_get_indexed_variable env (depth + 1)) r data).1,
          List.replicate n (VData.json r2.decoded.length doc)) := by
  have hidx : it.index < env.variables_.length := (List.get?_eq_some.mp hv).1
  obtain ⟨r3, vv, hlook, hvv, hdata3, hvalid3, hdec3, _, _, _, _⟩ :=
    ngx_http_get_indexed_variable_accepted env depth r r1 r2 data it.index dv nm doc hdata hv
      hh hd hvalid hfound hreg hsrc hdec
  have hfirst : get_json env (ngx_http_get_indexed_variable env (depth + 1)) r data =
      (r3, VData.json r2.decoded.length doc) := by
    rw [get_json_found env _ r data it hit, hlook]
    simp only [hdata3]
  rw [hfirst]
  refine ⟨rfl, hdec3, ?_, ?_⟩
  · intro hlit
    obtain ⟨h2, hnm⟩ := json_desc_source_literal env _ r1 r2 data nm hlit hsrc
    refine ⟨?_, hnm⟩
    rw [h2]
    have := (register_cleanup_logs r).2.1
    rw [hreg] at this
    exact this
  · intro n d
    have := get_json_times_settled env data it hit hidx d n r3 (by rw [← hvv]; exact hvalid3)
    rw [this, ← hvv, hdata3]

/-! ## C7: the cleanup handler -/

theorem json_delete_deleted (r : Request) (d : VData) (hd : slot_is_text d = false) :
    json_delete r d = { r with deleted := r.deleted ++ (slot_handle d).toList } := by
  cases d with
  | null => simp [json_delete, slot_handle]
  | text s => simp [slot_is_text] at hd
  | json h doc => simp [json_delete, slot_handle]

/-- The handler on entries whose slots are all evaluated: no getter runs, and
the handles the slots hold are released in order. -/
theorem cleanup_settled (env : Env) (depth : Nat) :
    ∀ (items : List je_item_t) (r : Request),
      (∀ it ∈ items, it.index < env.variables_.length ∧
        ((r.variables_ it.index).not_found || (r.variables_ it.index).valid) = true ∧
        slot_is_text (r.variables_ it.index).data = false) →
      items.foldl (cleanup_visit (ngx_http_get_indexed_variable env depth)) r =
        { r with deleted := r.deleted ++
            items.filterMap (fun it => slot_handle (r.variables_ it.index).data) } := by
  intro items
  induction items with
  | nil => intro r _; simp
  | cons it items ih =>
    intro r h
    obtain ⟨hidx, hset, htext⟩ := h it (List.mem_cons_self _ _)
    have hvisit : cleanup_visit (ngx_http_get_indexed_variable env depth) r it =
        { r with deleted := r.deleted ++ (slot_handle (r.variables_ it.index).data).toList } := by
      unfold cleanup_visit
      rw [ngx_http_get_indexed_variable_settled env depth r it.index hidx hset]
      exact json_delete_deleted r _ htext
    have hrest := ih
      { r with deleted := r.deleted ++ (slot_handle (r.variables_ it.index).data).toList }
      (fun x hx => h x (List.mem_cons_of_mem _ hx))
    rw [List.foldl_cons, hvisit, hrest]
    cases hs : slot_handle (r.variables_ it.index).data <;>
      simp [List.filterMap_cons, hs]

/-- The handler on a request in which the slot of every entry is already
evaluated: it runs no getter and decodes nothing, and it releases exactly the
handles the slots hold, in the order of the entries, one release for each
entry whose slot holds one and none for the others. -/
theorem cleanup_handler_settled (env : Env) (depth : Nat) (r : Request)
    (h : ∀ it ∈ env.olcf.json_cache, it.index < env.variables_.length ∧
      ((r.variables_ it.index).not_found || (r.variables_ it.index).valid) = true ∧
      slot_is_text (r.variables_ it.index).data = false) :
    ngx_json_extractor_module_cleanup_handler env (ngx_http_get_indexed_variable env depth) r
      = { r with
          deleted := r.deleted ++ env.olcf.json_cache.filterMap (fun it =>
            slot_handle (r.variables_ it.index).data) } :=
  cleanup_settled env depth env.olcf.json_cache r h

/-- The visit of an entry whose slot is not yet evaluated, on a request whose
pool is there: the lookup runs `ngx_http_json_desc`, which decodes the source
during the visit; when the decoder accepts it the document just decoded is
released at once, when it rejects it nothing is released. -/
theorem cleanup_visit_unevaluated (env : Env) (depth : Nat) (r r1 r2 : Request)
    (it : je_item_t) (dv : ngx_http_variable_t) (nm : CStr)
    (hdata : it.data ≠ 0) (hv : env.variables_.get? it.index = some dv)
    (hh : dv.get_handler = get_handler_pt.json_desc) (hd : dv.data = it.data)
    (hvalid : (r.variables_ it.index).valid = false)
    (hfound : (r.variables_ it.index).not_found = false)
    (hreg : register_cleanup r = (r1, true))
    (hsrc : json_desc_source env (ngx_http_get_indexed_variable env depth) r1 it.data
      = (r2, some nm)) :
    (∀ doc, env.loads (strip nm) JSON_DECODE_ANY = some doc →
      (cleanup_visit (ngx_http_get_indexed_variable env (depth + 1)) r it).decoded
        = r2.decoded ++ [(strip nm, JSON_DECODE_ANY)] ∧
      (cleanup_visit (ngx_http_get_indexed_variable env (depth + 1)) r it).deleted
        = r2.deleted ++ [r2.decoded.length]) ∧
    (env.loads (strip nm) JSON_DECODE_ANY = none →
      (cleanup_visit (ngx_http_get_indexed_variable env (depth + 1)) r it).decoded
        = r2.decoded ++ [(strip nm, JSON_DECODE_ANY)] ∧
      (cleanup_visit (ngx_http_get_indexed_variable env (depth + 1)) r it).deleted
        = r2.deleted) := by
  refine ⟨?_, ?_⟩
  · intro doc hdec
    obtain ⟨r3, vv, hlook, _, hdata3, _, hdec3, hdel3, _, _, _⟩ :=
      ngx_http_get_indexed_variable_accepted env depth r r1 r2 it.data it.index dv nm doc
        hdata hv hh hd hvalid hfound hreg hsrc hdec
    unfold cleanup_visit
    rw [hlook]
    simp only [hdata3, json_delete]
    exact ⟨hdec3, by rw [hdel3]⟩
  · intro hrej
    unfold cleanup_visit
    rw [ngx_http_get_indexed_variable_rejected env depth r r1 r2 it.data it.index dv nm
      hdata hv hh hd hvalid hfound hreg hsrc hrej]
    exact ⟨rfl, rfl⟩

/-- The visit of an entry whose slot is not yet evaluated, on a request whose
pool the host has set to NULL: the lookup runs `ngx_http_json_desc`, whose
cleanup block reads `r->pool->cleanup`. -/
theorem cleanup_visit_unevaluated_no_pool (env : Env) (depth : Nat) (r : Request)
    (it : je_item_t) (dv : ngx_http_variable_t)
    (hdata : it.data ≠ 0) (hv : env.variables_.get? it.index = some dv)
    (hh : dv.get_handler = get_handler_pt.json_desc) (hd : dv.data = it.data)
    (hvalid : (r.variables_ it.index).valid = false)
    (hfound : (r.variables_ it.index).not_found = false)
    (hpool : r.pool_null = true) :
    (cleanup_visit (ngx_http_get_indexed_variable env (depth + 1)) r it).fault = true := by
  unfold cleanup_visit
  rw [ngx_http_get_indexed_variable_desc env depth r it.index dv hv hh hvalid hfound, hd]
  unfold ngx_http_json_desc register_cleanup
  simp [hdata, hpool, NGX_ERROR, NGX_OK, set_variable]

/-! ## C9: the decoder's flags -/

/-- C9 (amended): every call of the decoder that an invocation of
`ngx_http_json_desc` makes, directly or through the getters the lookup of a
source variable runs, carries the flags `JSON_DECODE_ANY` and no other:
`JSON_REJECT_DUPLICATES` is not among them. When the invocation reaches the
decoder with the source text `nm`, the call it adds to the log is the one on
`strip nm` with `JSON_DECODE_ANY`. -/
theorem ngx_http_json_desc_flags (env : Env) (depth : Nat) (r : Request) (vi data : Nat) :
    (∃ l : List (CStr × Nat),
      (ngx_http_json_desc env (ngx_http_get_indexed_variable env depth) r vi data).1.decoded
        = r.decoded ++ l ∧
      ∀ e ∈ l, e.2 = JSON_DECODE_ANY ∧ e.2 &&& JSON_REJECT_DUPLICATES = 0) ∧
    (∀ (r1 r2 : Request) (nm : CStr), data ≠ 0 → register_cleanup r = (r1, true) →
      json_desc_source env (ngx_http_get_indexed_variable env depth) r1 data = (r2, some nm) →
      (ngx_http_json_desc env (ngx_http_get_indexed_variable env depth) r vi data).1.decoded
        = r2.decoded ++ [(strip nm, JSON_DECODE_ANY)]) := by
  refine ⟨?_, ?_⟩
  · obtain ⟨l, hl, hf⟩ := ngx_http_json_desc_step decoded_step_invariant env _
      (ngx_http_get_indexed_variable_step decoded_step_invariant env depth) r vi data
    refine ⟨l, hl, fun e he => ⟨hf e he, ?_⟩⟩
    rw [hf e he]
    decide
  · intro r1 r2 nm hdata hreg hsrc
    cases hdec : env.loads (strip nm) JSON_DECODE_ANY with
    | none =>
      rw [ngx_http_json_desc_rejected env _ r r1 r2 vi data nm hdata hreg hsrc hdec]
    | some doc =>
      rw [ngx_http_json_desc_accepted env _ r r1 r2 vi data nm doc hdata hreg hsrc hdec]
      rfl


/-! ## The theorems at a concrete configuration -/

/-- The default value at a concrete configuration: `$o__x` on
`{"a": 5, "o": {"b": 1}}` with the default value `N/A`. The copy of the name,
5 bytes, is not a large block of a pool with `max` 4016; the object under `o`
lacks `x`, and the variable is `N/A`. -/
theorem ngx_http_json_extract_var_default_witness :
    (ngx_http_json_extract_var env_example (host_lookup env_example) request_fresh 2
      0x1000).2 = NGX_OK ∧
    ((ngx_http_json_extract_var env_example (host_lookup env_example) request_fresh 2
      0x1000).1.variables_ 2).data = VData.text ['N', '/', 'A'] ∧
    ((ngx_http_json_extract_var env_example (host_lookup env_example) request_fresh 2
      0x1000).1.variables_ 2).len = 3 ∧
    ((ngx_http_json_extract_var env_example (host_lookup env_example) request_fresh 2
      0x1000).1.variables_ 2).valid = true ∧
    ((ngx_http_json_extract_var env_example (host_lookup env_example) request_fresh 2
      0x1000).1.variables_ 2).not_found = false :=
  ngx_http_json_extract_var_default env_example (host_lookup env_example) request_fresh
    (get_json env_example (host_lookup env_example) request_fresh 0x1000).1 2 0x1000 0
    { name := "o__x".toList, get_handler := .json_extract_var, data := 0x1000,
      flags := NGX_HTTP_VAR_CHANGEABLE, index := 2 }
    doc_ao rfl (by decide) rfl rfl rfl rfl
    (lacks_final_key.inner _ _ (.object [(['b'], .integer 1)]) 'x' [] rfl rfl
      (lacks_final_key.final _ _ rfl (Or.inl rfl) rfl))

theorem name_long_length : name_long.length = 4023 := by
  rw [name_long, List.length_append, List.length_replicate]
  rfl

/-- The copy of `name_long` is released by `ngx_pfree`: its 4024 bytes exceed
the pool's `max`, 4016, and no prefix is configured. -/
theorem stext_released_name_long : stext_released env_long_name name_long = true := by
  unfold stext_released
  rw [name_long_length]
  rfl

/-- C2, the code at the failing input: the default-value feature is
enabled with the default `N/A`, no prefix is configured, and the request
pool serves at most 4016 bytes from its own blocks. The variable of name
`name_long` (4023 characters) is an output of the directive on
`{"a": 5, "o": {"b": 1}}`; the document is decoded, the value under `o` is an
object, and that object lacks the final key of the path, 4020 times `x`. The
copy of the name, 4024 bytes, is a large block that `ngx_pfree` releases
before `get_json_item` is called on it: the getter reads released memory,
where the claim has it return `NGX_OK` with the default value. On the same
request the short name `o__x`, whose copy is not released, gets `N/A`. -/
theorem ngx_http_json_extract_var_long_name :
    env_long_name.use_default_value = true ∧
    env_long_name.olcf.prefix_ = [] ∧
    env_long_name.pool_max = 4016 ∧
    (get_head_var env_long_name 7).map (fun v => v.name) = some name_long ∧
    name_long.length + 1 = 4024 ∧
    (get_json env_long_name (host_lookup env_long_name) request_fresh 0x1000).2
      = VData.json 0 doc_ao ∧
    (json_object_get doc_ao (item_key env_long_name.olcf name_long)).map json_is_object
      = some true ∧
    ((json_object_get doc_ao (item_key env_long_name.olcf name_long)).bind
      (fun o => (item_rest env_long_name.olcf name_long).map
        (fun rest => (json_object_get o rest).isNone))) = some true ∧
    stext_released env_long_name name_long = true ∧
    (ngx_http_json_extract_var env_long_name (host_lookup env_long_name) request_fresh 7
      0x1000).1.fault = true ∧
    stext_released env_long_name ['o', '_', '_', 'x'] = false ∧
    (ngx_http_json_extract_var env_long_name (host_lookup env_long_name) request_fresh 2
      0x1000).1.fault = false ∧
    (ngx_http_json_extract_var env_long_name (host_lookup env_long_name) request_fresh 2
      0x1000).2 = NGX_OK ∧
    ((ngx_http_json_extract_var env_long_name (host_lookup env_long_name) request_fresh 2
      0x1000).1.variables_ 2).data = VData.text ['N', '/', 'A'] :=
  ⟨rfl, rfl, rfl, rfl, by rw [name_long_length], rfl, by decide, by decide,
    stext_released_name_long,
    ngx_http_json_extract_var_reads_released env_long_name (host_lookup env_long_name)
      request_fresh
      (get_json env_long_name (host_lookup env_long_name) request_fresh 0x1000).1 7 0x1000 0
      { name := name_long, get_handler := .json_extract_var, data := 0x1000,
        flags := NGX_HTTP_VAR_CHANGEABLE, index := 7 }
      doc_ao (by decide) rfl rfl rfl stext_released_name_long,
    by decide, by decide, by decide, rfl⟩

/-- C3, witness: `$a__b` on `{"a": 5, "o": {"b": 1}}`: the value under `a` is
a number where an object is expected, `get_json_item` returns NULL and the
variable is the default value `N/A`. -/
theorem ngx_http_json_extract_var_non_object_witness :
    get_json_item env_example.dumps env_example.olcf ['a', '_', '_', 'b'] doc_ao = none ∧
    (ngx_http_json_extract_var env_example (host_lookup env_example) request_fresh 1
      0x1000).2 = NGX_OK ∧
    ((ngx_http_json_extract_var env_example (host_lookup env_example) request_fresh 1
      0x1000).1.variables_ 1) =
      { len := 3, valid := true, no_cacheable := false, not_found := false,
        data := VData.text ['N', '/', 'A'] } :=
  ngx_http_json_extract_var_non_object env_example (host_lookup env_example) request_fresh
    (get_json env_example (host_lookup env_example) request_fresh 0x1000).1 1 0x1000 0
    { name := "a__b".toList, get_handler := .json_extract_var, data := 0x1000,
      flags := NGX_HTTP_VAR_CHANGEABLE, index := 1 }
    doc_ao rfl (by decide) rfl rfl rfl rfl
    (meets_non_object.inner _ _ (.integer 5) 'b' [] rfl rfl
      (meets_non_object.here _ _ rfl))

/-- C3, counterexample: with the default-value feature enabled and the default
`N/A`, on the document `{"a": 5, "o": {"b": 1}}` the path `a__b` runs into the
number under `a`; `get_json_item` returns NULL as it does for the missing
key of `o__x`, and `ngx_http_json_extract_var`, whose copy of the name is not
released and which reads no pointer it should not, returns `NGX_OK` with the
variable set to `N/A`. -/
theorem ngx_http_json_extract_var_non_object_counterexample :
    env_example.use_default_value = true ∧
    env_example.loads (strip (env_example.mem 0x1000)) JSON_DECODE_ANY = some doc_ao ∧
    (json_object_get doc_ao ['a']).map json_is_object = some false ∧
    get_json_item env_example.dumps env_example.olcf ['a', '_', '_', 'b'] doc_ao = none ∧
    get_json_item env_example.dumps env_example.olcf ['o', '_', '_', 'x'] doc_ao = none ∧
    stext_released env_example ['a', '_', '_', 'b'] = false ∧
    (ngx_http_json_extract_var env_example (host_lookup env_example) request_fresh 1
      0x1000).1.fault = false ∧
    (ngx_http_json_extract_var env_example (host_lookup env_example) request_fresh 1
      0x1000).2 = NGX_OK ∧
    ((ngx_http_json_extract_var env_example (host_lookup env_example) request_fresh 1
      0x1000).1.variables_ 1).data = VData.text ['N', '/', 'A'] ∧
    ((ngx_http_json_extract_var env_example (host_lookup env_example) request_fresh 1
      0x1000).1.variables_ 1).valid = true :=
  ⟨rfl, rfl, by decide, by decide, by decide, by decide, by decide, by decide, rfl, rfl⟩

/-- C4, witness: the descriptor on `{not json`: its getter returns
`NGX_ERROR` and leaves its slot as it was, and the getter of `$q` returns
`NGX_ERROR` and leaves the slot of `$q` as it was, at the first reading and
at a second one. -/
theorem json_parse_error_unavailable_witness :
    env_example.loads (strip src_bad) JSON_DECODE_ANY = none ∧
    (ngx_http_json_desc env_example (ngx_http_get_indexed_variable env_example 99)
      request_fresh 4 0x2000).2 = NGX_ERROR ∧
    (ngx_http_json_desc env_example (ngx_http_get_indexed_variable env_example 99)
      request_fresh 4 0x2000).1.variables_ = request_fresh.variables_ ∧
    (ngx_http_json_extract_var env_example (ngx_http_get_indexed_variable env_example 100)
      request_fresh 5 0x2000).2 = NGX_ERROR ∧
    (ngx_http_json_extract_var env_example (ngx_http_get_indexed_variable env_example 100)
      request_fresh 5 0x2000).1.variables_ 5 = request_fresh.variables_ 5 ∧
    (ngx_http_json_extract_var env_example (ngx_http_get_indexed_variable env_example 100)
      (ngx_http_json_extract_var env_example (ngx_http_get_indexed_variable env_example 100)
        request_fresh 5 0x2000).1 5 0x2000).2 = NGX_ERROR := by
  have T := json_parse_error_unavailable env_example 99 request_fresh
    (register_cleanup request_fresh).1 (register_cleanup request_fresh).1 0x2000
    { data := 0x2000, data_index := NGX_CONF_UNSET_UINT, index := 4 }
    { name := "jsone_0x2000".toList, get_handler := .json_desc, data := 0x2000,
      flags := NGX_HTTP_VAR_CHANGEABLE, index := 4 }
    src_bad (by decide) rfl rfl rfl rfl rfl rfl rfl rfl rfl rfl
  have B := T.2.2 5
    { name := "q".toList, get_handler := .json_extract_var, data := 0x2000,
      flags := NGX_HTTP_VAR_CHANGEABLE, index := 5 } rfl (by decide)
  exact ⟨rfl, T.1.1, T.1.2, B.1, B.2.1, congrArg Prod.snd (B.2.2 5 100)⟩

/-- C6, witness: the descriptor on `src_doc`: the first `get_json` on a fresh
request calls the decoder once and returns the handle 0; three more calls
return the same handle and leave the request as it was. -/
theorem get_json_decodes_once_witness :
    (get_json env_example (ngx_http_get_indexed_variable env_example 100) request_fresh
      0x1000).2 = VData.json 0 doc_ao ∧
    (get_json env_example (ngx_http_get_indexed_variable env_example 100) request_fresh
      0x1000).1.decoded = [(strip src_doc, JSON_DECODE_ANY)] ∧
    get_json_times env_example (ngx_http_get_indexed_variable env_example 100) 0x1000 3
        (get_json env_example (ngx_http_get_indexed_variable env_example 100) request_fresh
          0x1000).1 =
      ((get_json env_example (ngx_http_get_indexed_variable env_example 100) request_fresh
          0x1000).1,
        [VData.json 0 doc_ao, VData.json 0 doc_ao, VData.json 0 doc_ao]) := by
  have T := get_json_decodes_once env_example 99 request_fresh
    (register_cleanup request_fresh).1 (register_cleanup request_fresh).1 0x1000
    { data := 0x1000, data_index := NGX_CONF_UNSET_UINT, index := 0 }
    { name := "jsone_0x1000".toList, get_handler := .json_desc, data := 0x1000,
      flags := NGX_HTTP_VAR_CHANGEABLE, index := 0 }
    src_doc doc_ao (by decide) rfl rfl rfl rfl rfl rfl rfl rfl rfl
  exact ⟨T.1, T.2.1, T.2.2.2 3 100⟩

/-- The handler at a concrete request: after the three descriptors of
`env_example` have been evaluated the handler releases the two documents
held, the handles 0 and 2, and decodes nothing, whether or not the host has
set `r->pool` to NULL. -/
theorem cleanup_handler_settled_witness :
    (ngx_json_extractor_module_cleanup_handler env_example
        (ngx_http_get_indexed_variable env_example 100) request_all).deleted = [0, 2] ∧
    (ngx_json_extractor_module_cleanup_handler env_example
        (ngx_http_get_indexed_variable env_example 100) request_all).decoded
      = request_all.decoded ∧
    (ngx_json_extractor_module_cleanup_handler env_example
        (ngx_http_get_indexed_variable env_example 100)
        (request_teardown request_all)).deleted = [0, 2] ∧
    (ngx_json_extractor_module_cleanup_handler env_example
        (ngx_http_get_indexed_variable env_example 100)
        (request_teardown request_all)).fault = false := by
  have A := cleanup_handler_settled env_example 100 request_all (by decide)
  have B := cleanup_handler_settled env_example 100 (request_teardown request_all)
    (by decide)
  exact ⟨by rw [A]; rfl, by rw [A], by rw [B]; rfl, by rw [B]; rfl⟩

/-- C7, the code at the failing input: on `request_used` the cleanup entry is
registered, the document of `src_doc` is held with handle 0, and the slots of
the descriptors on `src_bad` and `src_dup`, which the request never read,
are not evaluated and hold no document. The handler reads every slot through
the lookup, which runs the getter of a slot not yet evaluated. On a host
that leaves `r->pool` in place the handler calls the decoder on both
sources and releases, besides the document of handle 0, the document of
handle 2 that it has just decoded; on a host that has set `r->pool` to NULL
the getter dereferences it. The claim has the handler decode nothing and
release nothing for these entries. -/
theorem cleanup_handler_evaluates_unread :
    request_used.cleanup = [cleanup_pt.json_extractor_module_cleanup] ∧
    request_used.decoded = [(strip src_doc, JSON_DECODE_ANY)] ∧
    request_used.deleted = [] ∧
    request_used.fault = false ∧
    slot_handle (request_used.variables_ 0).data = some 0 ∧
    (request_used.variables_ 4).valid = false ∧
    (request_used.variables_ 4).not_found = false ∧
    slot_handle (request_used.variables_ 4).data = none ∧
    (request_used.variables_ 6).valid = false ∧
    (request_used.variables_ 6).not_found = false ∧
    slot_handle (request_used.variables_ 6).data = none ∧
    (ngx_json_extractor_module_cleanup_handler env_example (host_lookup env_example)
        request_used).decoded =
      [(strip src_doc, JSON_DECODE_ANY), (src_bad, JSON_DECODE_ANY),
        (src_dup, JSON_DECODE_ANY)] ∧
    (ngx_json_extractor_module_cleanup_handler env_example (host_lookup env_example)
        request_used).deleted = [0, 2] ∧
    (ngx_json_extractor_module_cleanup_handler env_example (host_lookup env_example)
        (request_teardown request_used)).fault = true := by
  decide

/-- C9, witness: the getter of the descriptor on `src_doc` calls the decoder
on the stripped text with `JSON_DECODE_ANY`. -/
theorem ngx_http_json_desc_flags_witness :
    (ngx_http_json_desc env_example (ngx_http_get_indexed_variable env_example 100)
      request_fresh 0 0x1000).1.decoded = [(strip src_doc, JSON_DECODE_ANY)] :=
  (ngx_http_json_desc_flags env_example 100 request_fresh 0 0x1000).2
    (register_cleanup request_fresh).1 (register_cleanup request_fresh).1 src_doc
    (by decide) rfl rfl

/-- C9, counterexample: the source `{"k": 1, "k": 2}` has the key `k` twice;
the getter passes the flags 4 to the decoder, which hold `JSON_DECODE_ANY`
and not `JSON_REJECT_DUPLICATES`, so the decoder, which rejects the text
under `JSON_REJECT_DUPLICATES`, accepts it: the getter returns `NGX_OK` and
stores the document. -/
theorem ngx_http_json_desc_flags_counterexample :
    env_example.mem 0x3000 = src_dup ∧
    (ngx_http_json_desc env_example (host_lookup env_example) request_fresh 6 0x3000).1.decoded
      = [(src_dup, 4)] ∧
    4 &&& JSON_DECODE_ANY = JSON_DECODE_ANY ∧
    4 &&& JSON_REJECT_DUPLICATES = 0 ∧
    (env_example.loads src_dup (JSON_DECODE_ANY ||| JSON_REJECT_DUPLICATES)).isNone = true ∧
    (ngx_http_json_desc env_example (host_lookup env_example) request_fresh 6 0x3000).2
      = NGX_OK ∧
    slot_handle ((ngx_http_json_desc env_example (host_lookup env_example) request_fresh 6
      0x3000).1.variables_ 6).data = some 0 := by
  decide


/-! ## C11: strip -/

theorem strip_leading_eq_dropWhile (s : CStr) :
    strip_leading s = s.dropWhile l_isspace := by
  induction s with
  | nil => rfl
  | cons c cs ih =>
    by_cases h : l_isspace c = true
    · simp [strip_leading, List.dropWhile_cons, h, ih]
    · simp [strip_leading, List.dropWhile_cons, h]

/-- The first loop of `strip` stops at the end of the text or at a character
that is not whitespace. -/
theorem strip_leading_head (s : CStr) :
    strip_leading s = [] ∨
      ∃ c cs, strip_leading s = c :: cs ∧ l_isspace c = false := by
  induction s with
  | nil => exact Or.inl rfl
  | cons c cs ih =>
    by_cases h : l_isspace c = true
    · simpa [strip_leading, h] using ih
    · right
      exact ⟨c, cs, by simp [strip_leading, h], by simpa using h⟩

theorem strip_spec_eq_rdropWhile (s : CStr) :
    strip_spec s = List.rdropWhile l_isspace (s.dropWhile l_isspace) := rfl

theorem strip_trailing_succ (result : CStr) (n : Nat) :
    strip_trailing result (n + 1) =
      if l_isspace (result.getD n '\x00') then strip_trailing result n else n + 1 := rfl

theorem strip_trailing_checked_succ (result : CStr) (n : Nat) :
    strip_trailing_checked result (n + 1) =
      if l_isspace (result.getD n '\x00') then strip_trailing_checked result n
      else some (n + 1) := rfl

/-- The second loop of `strip` cuts the longest run of whitespace at the end
of the first `n` characters. -/
theorem strip_trailing_take (result : CStr) :
    ∀ n, n ≤ result.length →
      result.take (strip_trailing result n) =
        List.rdropWhile l_isspace (result.take n) := by
  intro n
  induction n with
  | zero => intro _; simp [strip_trailing]
  | succ n ih =>
    intro hn
    have hlt : n < result.length := by omega
    have hget : result.getD n '\x00' = result[n] := by
      simp [List.getD_eq_getElem?_getD, List.getElem?_eq_getElem hlt]
    have htake : result.take (n + 1) = result.take n ++ [result[n]] := by
      rw [List.take_succ, List.getElem?_eq_getElem hlt]; rfl
    rw [htake]
    by_cases h : l_isspace result[n] = true
    · rw [List.rdropWhile_concat_pos _ _ _ h, ← ih (by omega), strip_trailing_succ, hget,
        if_pos h]
    · rw [List.rdropWhile_concat_neg _ _ _ h, ← htake, strip_trailing_succ, hget, if_neg h]

/-- The function `strip` computes the text of the specification. -/
theorem strip_eq_strip_spec (s : CStr) : strip s = strip_spec s := by
  rw [strip_spec_eq_rdropWhile, ← strip_leading_eq_dropWhile]
  unfold strip
  simp only
  split
  · next h =>
    rw [List.length_eq_zero.mp h]
    simp
  · rw [strip_trailing_take _ _ (Nat.le_refl _), List.take_length]

/-- The second loop of `strip` stops before it reads below an index at which
the text holds a character that is not whitespace. -/
theorem strip_trailing_checked_eq (result : CStr) (i : Nat)
    (hi : l_isspace (result.getD i '\x00') = false) :
    ∀ n, i < n → strip_trailing_checked result n = some (strip_trailing result n) := by
  intro n
  induction n with
  | zero => intro h; omega
  | succ n ih =>
    intro hn
    by_cases h : l_isspace (result.getD n '\x00') = true
    · have hne : i ≠ n := by
        intro e; subst e; rw [h] at hi; cases hi
      rw [strip_trailing_checked_succ, strip_trailing_succ, if_pos h, if_pos h]
      exact ih (by omega)
    · rw [strip_trailing_checked_succ, strip_trailing_succ, if_neg h, if_neg h]

theorem strip_checked_eq (s : CStr) : strip_checked s = some (strip s) := by
  unfold strip_checked strip
  simp only
  split
  · rfl
  · next hlen =>
    rcases strip_leading_head s with h | ⟨c, cs, h, hc⟩
    · rw [h] at hlen; simp at hlen
    · have h0 : l_isspace ((strip_leading s).getD 0 '\x00') = false := by
        rw [h]; simpa using hc
      rw [strip_trailing_checked_eq _ 0 h0 _ (by omega)]
      rfl


/-- A text is its leading whitespace, then what `strip` returns, then its
trailing whitespace. -/
theorem strip_decompose (s : CStr) :
    ∃ lead trail : CStr, s = lead ++ strip s ++ trail ∧
      (∀ c ∈ lead, l_isspace c = true) ∧ (∀ c ∈ trail, l_isspace c = true) := by
  refine ⟨s.takeWhile l_isspace,
    ((s.dropWhile l_isspace).reverse.takeWhile l_isspace).reverse, ?_, ?_, ?_⟩
  · rw [strip_eq_strip_spec]
    unfold strip_spec
    rw [List.append_assoc, ← List.reverse_append, List.takeWhile_append_dropWhile,
      List.reverse_reverse, List.takeWhile_append_dropWhile]
  · intro c hc
    exact List.mem_takeWhile_imp hc
  · intro c hc
    exact List.mem_takeWhile_imp (List.mem_reverse.mp hc)

/-- A text of whitespace only is stripped to the empty text. -/
theorem strip_of_all_space (s : CStr) (h : ∀ c ∈ s, l_isspace c = true) : strip s = [] := by
  rw [strip_eq_strip_spec]
  unfold strip_spec
  rw [List.dropWhile_eq_nil_iff.mpr h]
  rfl

/-- What `strip` returns starts with the character the first loop stops at. -/
theorem strip_head (s : CStr) (c : Char) (cs : CStr) (h : strip_leading s = c :: cs)
    (hne : strip s ≠ []) : (strip s).head? = some c := by
  have hpre : strip s <+: c :: cs := by
    rw [strip_eq_strip_spec, strip_spec_eq_rdropWhile, ← strip_leading_eq_dropWhile, h]
    exact List.rdropWhile_prefix _ _
  cases hs : strip s with
  | nil => exact absurd hs hne
  | cons d ds =>
    rw [hs] at hpre
    rw [(List.cons_prefix_cons.mp hpre).1]
    rfl

/-- A text with a character that is not whitespace is stripped to a text that
is not empty. -/
theorem strip_ne_nil (s : CStr) (h : ∃ c ∈ s, l_isspace c = false) : strip s ≠ [] := by
  intro he
  rw [strip_eq_strip_spec, strip_spec_eq_rdropWhile, List.rdropWhile_eq_nil_iff,
    ← strip_leading_eq_dropWhile] at he
  rcases strip_leading_head s with h0 | ⟨c, cs, h1, hc⟩
  · rw [strip_leading_eq_dropWhile, List.dropWhile_eq_nil_iff] at h0
    obtain ⟨x, hx, hxs⟩ := h
    rw [h0 x hx] at hxs
    cases hxs
  · have := he c (by rw [h1]; exact List.mem_cons_self _ _)
    rw [hc] at this
    cases this

/-- The first and the last character of a stripped text are not whitespace. -/
theorem strip_ends (s : CStr) (hne : strip s ≠ []) :
    ∃ c d : Char, (strip s).head? = some c ∧ (strip s).getLast? = some d ∧
      l_isspace c = false ∧ l_isspace d = false := by
  rcases strip_leading_head s with h0 | ⟨c, cs, h1, hc⟩
  · exfalso
    apply hne
    rw [strip_eq_strip_spec, strip_spec_eq_rdropWhile, ← strip_leading_eq_dropWhile, h0]
    rfl
  · refine ⟨c, (strip s).getLast hne, strip_head s c cs h1 hne,
      List.getLast?_eq_getLast _ hne, hc, ?_⟩
    have hne' : List.rdropWhile l_isspace (s.dropWhile l_isspace) ≠ [] := by
      rw [← strip_spec_eq_rdropWhile, ← strip_eq_strip_spec]; exact hne
    have hlast := List.rdropWhile_last_not l_isspace (s.dropWhile l_isspace) hne'
    have heq : (strip s).getLast hne =
        (List.rdropWhile l_isspace (s.dropWhile l_isspace)).getLast hne' := by
      congr 1
      rw [strip_eq_strip_spec, strip_spec_eq_rdropWhile]
    rw [heq]
    simpa using hlast

/-- A text whose first and last characters are not whitespace is stripped to
itself. -/
theorem strip_of_ends (t : CStr) (c d : Char) (hh : t.head? = some c)
    (hl : t.getLast? = some d) (hc : l_isspace c = false) (hd : l_isspace d = false) :
    strip t = t := by
  cases t with
  | nil => rfl
  | cons x xs =>
    have hx : x = c := by simpa using hh
    subst hx
    have h1 : (x :: xs).dropWhile l_isspace = x :: xs := by
      simp [List.dropWhile_cons, hc]
    rw [strip_eq_strip_spec, strip_spec_eq_rdropWhile, h1, List.rdropWhile_eq_self_iff]
    intro hne
    rw [List.getLast?_eq_getLast _ hne] at hl
    rw [Option.some.inj hl, hd]
    simp

/-- Leading whitespace does not change what `strip` returns. -/
theorem strip_append_left (lead t : CStr) (h : ∀ c ∈ lead, l_isspace c = true) :
    strip (lead ++ t) = strip t := by
  rw [strip_eq_strip_spec, strip_eq_strip_spec]
  unfold strip_spec
  congr 3
  induction lead with
  | nil => rfl
  | cons c cs ih =>
    rw [List.cons_append, List.dropWhile_cons, if_pos (h c (List.mem_cons_self _ _))]
    exact ih (fun x hx => h x (List.mem_cons_of_mem _ hx))

theorem strip_idempotent (s : CStr) : strip (strip s) = strip s := by
  by_cases hne : strip s = []
  · rw [hne]; rfl
  · obtain ⟨c, d, hh, hl, hc, hd⟩ := strip_ends s hne
    exact strip_of_ends _ c d hh hl hc hd

/-- The function `strip` cuts the text in place, at the end of what it
returns: the buffer then holds the leading whitespace and the stripped text,
and `strip` on it returns the same text again. -/
theorem strip_buffer_after (s lead : CStr) (hlead : ∀ c ∈ lead, l_isspace c = true) :
    strip (lead ++ strip s) = strip s := by
  rw [strip_append_left lead (strip s) hlead, strip_idempotent]


theorem l_isspace_iff (c : Char) :
    l_isspace c = true ↔ c = ' ' ∨ c = '\n' ∨ c = '\r' ∨ c = '\t' := by
  simp [l_isspace, or_assoc]

/-- C11: for every source text `s`, with whitespace being the characters
space, `'\n'`, `'\r'` and `'\t'`: `strip s` is `s` without its longest
leading run and its longest trailing run of whitespace (`strip_spec`), so `s`
is a run of whitespace, then `strip s` unchanged, then a run of whitespace;
`strip s` is empty when `s` is empty or all whitespace, and otherwise begins
and ends with characters that are not whitespace; the second loop never
reads before the start of the result (`strip_checked`, in which such a read
gives no result, returns `strip s`); `strip` is idempotent; and the call of
`json_loads` that `ngx_http_json_desc` makes for the source text `s` is on
`strip s`. -/
theorem strip_trims_whitespace (s : CStr) :
    (∀ c : Char, l_isspace c = true ↔ c = ' ' ∨ c = '\n' ∨ c = '\r' ∨ c = '\t') ∧
    strip s = strip_spec s ∧
    (∃ lead trail : CStr, s = lead ++ strip s ++ trail ∧
      (∀ c ∈ lead, l_isspace c = true) ∧ (∀ c ∈ trail, l_isspace c = true)) ∧
    ((∀ c ∈ s, l_isspace c = true) → strip s = []) ∧
    ((∃ c ∈ s, l_isspace c = false) →
      ∃ c d : Char, (strip s).head? = some c ∧ (strip s).getLast? = some d ∧
        l_isspace c = false ∧ l_isspace d = false) ∧
    strip_checked s = some (strip s) ∧
    strip (strip s) = strip s ∧
    (∀ (env : Env) (lookup : Lookup) (r r1 r2 : Request) (vi data : Nat),
      data ≠ 0 → register_cleanup r = (r1, true) →
      json_desc_source env lookup r1 data = (r2, some s) →
      (ngx_http_json_desc env lookup r vi data).1.decoded =
        r2.decoded ++ [(strip s, JSON_DECODE_ANY)]) := by
  refine ⟨l_isspace_iff, strip_eq_strip_spec s, strip_decompose s, strip_of_all_space s,
    fun h => strip_ends s (strip_ne_nil s h), strip_checked_eq s, strip_idempotent s, ?_⟩
  intro env lookup r r1 r2 vi data hdata hreg hsrc
  cases hdec : env.loads (strip s) JSON_DECODE_ANY with
  | none =>
    rw [ngx_http_json_desc_rejected env lookup r r1 r2 vi data s hdata hreg hsrc hdec]
  | some doc =>
    rw [ngx_http_json_desc_accepted env lookup r r1 r2 vi data s doc hdata hreg hsrc hdec]
    rfl

/-- C11, witness: the source ` {"a": 5, "o": {"b": 1}} ` is stripped of the
blank at each end, the checked loop returns the same text, and that text is
what the getter of its descriptor passes to the decoder; a text of blanks is
stripped to the empty text. -/
theorem strip_trims_whitespace_witness :
    strip src_doc = strip_spec src_doc ∧
    strip src_doc = "\x7b\"a\": 5, \"o\": \x7b\"b\": 1\x7d\x7d".toList ∧
    strip_checked src_doc = some (strip src_doc) ∧
    strip (strip src_doc) = strip src_doc ∧
    strip [' ', '\t', '\r', '\n'] = [] ∧
    strip_checked [' ', '\t', '\r', '\n'] = some [] ∧
    (ngx_http_json_desc env_example (host_lookup env_example) request_fresh 0
      0x1000).1.decoded = [(strip src_doc, JSON_DECODE_ANY)] := by
  have T := strip_trims_whitespace src_doc
  exact ⟨T.2.1, by decide, T.2.2.2.2.2.1, T.2.2.2.2.2.2.1, by decide, by decide,
    T.2.2.2.2.2.2.2 env_example (host_lookup env_example) request_fresh
      (register_cleanup request_fresh).1 (register_cleanup request_fresh).1 0 0x1000
      (by decide) rfl rfl⟩

end NgxJsonExtractor
